import Mathlib

/-!
Verification development for the gate cinematic text-reveal/dissolve engine.

The definitions below are shallow embeddings of the TypeScript sources:
  * `src/experience/scenes/IntroGate/useIntroGateAnimation.ts` (the two-phrase
    cinematic controller: span creation, ember proximity loop, ash dissolve,
    scramble, cleanup),
  * `useScrambleText.ts` (`getRevealOrder`, the scramble hook),
  * `useScatterText.ts` / `useGateInput` and `IntroGate.tsx` (unlock input).

Randomness (`Math.random`) is modelled by explicit stream parameters; DOM
geometry (`getBoundingClientRect`) by explicit position functions; timer ids
by a monotone counter.  Machine floats used only as pixel coordinates are
modelled as integers, which preserves every comparison the code performs.
-/

namespace Gate

/-- Non-breaking space, the rendered glyph of every whitespace unit
(`\u00A0` in the sources). -/
def NBSP : Char := '\u00A0'

/-- `SCRAMBLE_CHARS` from `useIntroGateAnimation.ts`. -/
def SCRAMBLE_CHARS : String := "◈◇◆▽△▷◁○●□■♦♢✧✦⬡⬢⟡⟐⌬⏣"

/-- `GLOW_RADIUS` (pixels). -/
def GLOW_RADIUS : Nat := 30

/-- `SCRAMBLE_SPEED` (ms between scramble glyph swaps). -/
def SCRAMBLE_SPEED : Nat := 30

/-- `SCRAMBLE_REVEAL_DURATION` (ms). -/
def SCRAMBLE_REVEAL_DURATION : Nat := 600

/-- `SCRAMBLE_STAGGER * 1000` (ms): the code stores `0.04` seconds and
multiplies by 1000 at use sites; we keep the integral millisecond value. -/
def SCRAMBLE_STAGGER_MS : Nat := 40

/-- `PARTICLES_PER_CHAR`. -/
def PARTICLES_PER_CHAR : Nat := 7

/-- `PARTICLE_DURATION_MAX * 1000` (ms). -/
def PARTICLE_DURATION_MAX_MS : Nat := 1000

/-- Delay before `dissolveChar` runs after a unit is claimed by the
proximity loop (`150` in `updateTextGlow`). -/
def DISSOLVE_HOT_DELAY_MS : Nat := 150

/-- Delay of the completion timeout:
`PARTICLE_DURATION_MAX * 1000 + 1200`. -/
def COMPLETE_DELAY_MS : Nat := PARTICLE_DURATION_MAX_MS + 1200

/-- `TEXT_PART_1`. -/
def TEXT_PART_1 : String := "Not all magic protects."

/-- `TEXT_PART_2`. -/
def TEXT_PART_2 : String := "some destroys."

/-- `getRandomChar` of `useIntroGateAnimation.ts`:
`SCRAMBLE_CHARS[Math.floor(Math.random() * SCRAMBLE_CHARS.length)]`.
The random draw is modelled by the natural number `r`; the floor of a
uniform draw scaled by the length is a uniform index below the length,
which `r % length` ranges over. -/
def getRandomChar (r : Nat) : Char :=
  SCRAMBLE_CHARS.toList.getD (r % SCRAMBLE_CHARS.length) ' '

/-- Reveal direction policy of `useScrambleText.ts`
(`'left' | 'right' | 'random' | 'center'`). -/
inductive RevealDirection
  | left
  | right
  | random
  | center
deriving DecidableEq, Repr

/-- `getRevealOrder` of `useScrambleText.ts`.

`indices` is `Array.from(..., (_, i) => i)`, i.e. `List.range length`.
`'right'` is `indices.reverse()`; `'random'` is `indices.sort(() =>
Math.random() - 0.5)` — a JavaScript sort under an arbitrary (inconsistent)
comparator, which always returns some rearrangement of the array, modelled
as `mergeSort` under the arbitrary comparator `cmp`; `'center'` is the
push loop `for (i = 0; i <= center; i++)` with pushes guarded by
`center + i < length` and `center - i >= 0 && center - i !== center + i`
(the `center - i >= 0` guard is vacuously true for `0 ≤ i ≤ center`,
as it is in the JavaScript loop). -/
def getRevealOrder (cmp : Nat → Nat → Bool) (length : Nat)
    (direction : RevealDirection) : List Nat :=
  let indices := List.range length
  match direction with
  | .right => indices.reverse
  | .random => indices.mergeSort cmp
  | .center =>
    let center := length / 2
    (List.range (center + 1)).flatMap (fun i =>
      (if center + i < length then [center + i] else []) ++
      (if center - i ≠ center + i then [center - i] else []))
  | .left => indices

/-- The chunk pushed by iteration `i` of the `'center'` loop. -/
def centerChunk (center length i : Nat) : List Nat :=
  (if center + i < length then [center + i] else []) ++
  (if center - i ≠ center + i then [center - i] else [])

/-- The unlock target phrase (`TARGET` of `useGateInput`, also the `target`
prop handed to `IntroGate`). -/
def TARGET : String := "some destroys"

/-- JavaScript `String.prototype.trim`: strip leading and trailing
whitespace.  Modelled over the character list so that concrete instances
evaluate in the kernel. -/
def jsTrim (s : String) : String :=
  String.mk (((s.data.dropWhile Char.isWhitespace).reverse.dropWhile
    Char.isWhitespace).reverse)

/-- JavaScript `String.prototype.toLowerCase`, restricted to the ASCII
lowering relevant to the target phrase. -/
def jsToLowerCase (s : String) : String :=
  String.mk (s.data.map Char.toLower)

/-- `handleUnlock` of `useGateInput` (`useScatterText.ts` file):
`value.trim().toLowerCase() === TARGET` decides whether `setUnlocked(true)`
runs.  Returns whether the unlock fires. -/
def handleUnlock (value : String) : Bool :=
  jsToLowerCase (jsTrim value) == TARGET

/-- `handleKeyDown` of `IntroGate.tsx`: `onUnlock()` runs exactly when the
key is `Enter` and `value.trim().toLowerCase() === target`.  Returns whether
the unlock callback fires. -/
def handleKeyDown (key value target : String) : Bool :=
  key == "Enter" && jsToLowerCase (jsTrim value) == target

/-! ## The controller state (`useIntroGateAnimation.ts`)

One `UnitState` per generated character span.  `content` is
`span.textContent`, `processed` is the `data-processed` mark,
`hot` is `classList.contains(styles.hot)`, `inDissolvedSet` is membership
in `dissolvedCharsRef.current`, `dissolvedAttr` is the `data-dissolved`
mark, `particlesSpawned` counts the ash particles created for this span. -/

structure UnitState where
  isBlank : Bool
  finalGlyph : Char
  content : Char
  processed : Bool
  hot : Bool
  inDissolvedSet : Bool
  dissolvedAttr : Bool
  particlesSpawned : Nat
deriving DecidableEq, Repr

/-- Span creation for `TEXT_PART_1` (`span.textContent = isSpace ? NBSP :
char`); part-1 units keep their own character as final glyph. -/
def mkUnit1 (c : Char) : UnitState :=
  { isBlank := c == ' ', finalGlyph := if c == ' ' then NBSP else c,
    content := if c == ' ' then NBSP else c,
    processed := false, hot := false, inDissolvedSet := false,
    dissolvedAttr := false, particlesSpawned := 0 }

/-- Span creation for `TEXT_PART_2` (`span.textContent = isSpace ? NBSP :
getRandomChar()`, `finalChars2.push(isSpace ? NBSP : char)`);
`initGlyph` is the random initial glyph drawn for this span. -/
def mkUnit2 (initGlyph : Char) (c : Char) : UnitState :=
  { isBlank := c == ' ', finalGlyph := if c == ' ' then NBSP else c,
    content := if c == ' ' then NBSP else initGlyph,
    processed := false, hot := false, inDissolvedSet := false,
    dissolvedAttr := false, particlesSpawned := 0 }

/-- The kind of a scheduled timeout: the dissolve-after-hot timeout of
`updateTextGlow`, the completion timeout of `dissolveChar`, and the reveal
timeout of `startScramble` (closing over its unit index and interval id). -/
inductive TimerKind
  | dissolve (side : Bool) (i : Nat) (delayMs : Nat)
  | complete (delayMs : Nat)
  | reveal (i : Nat) (intervalId : Nat) (delayMs : Nat)
deriving DecidableEq, Repr

/-- A scheduled timeout: numeric handle plus its callback kind. -/
structure Timer where
  id : Nat
  kind : TimerKind
deriving DecidableEq, Repr

/-- Whether a timer is the completion timeout. -/
def Timer.isComplete (t : Timer) : Bool :=
  match t.kind with
  | .complete _ => true
  | _ => false

/-- The reveal payload of a timer, if it is a reveal timeout:
(unit index, delay in ms). -/
def Timer.revealTarget (t : Timer) : Option (Nat × Nat) :=
  match t.kind with
  | .reveal i _ d => some (i, d)
  | _ => none

/-- Runtime state of one mounted controller run.

`units1`/`units2` are the generated spans inside the two text containers;
`particles1`/`particles2` count the ash-particle nodes currently appended
to those containers; `pendingTimeouts`/`pendingIntervals` are the host's
outstanding timers (an interval entry is `(intervalId, part-2 unit index)`);
`trackedTimeouts`/`trackedIntervals` are the code's bookkeeping arrays
`timeouts`/`intervals`; `frameRequest` is the pending
`requestAnimationFrame` handle (`animationFrameId`); `nextId` generates
fresh host timer handles; `completionScheduled` counts registrations of the
completion timeout and `completeCalls` counts invocations of
`onComplete`. -/
structure GateState where
  units1 : List UnitState
  units2 : List UnitState
  dissolvedCount : Nat
  processedCount : Nat
  totalChars : Nat
  particles1 : Nat
  particles2 : Nat
  pendingTimeouts : List Timer
  pendingIntervals : List (Nat × Nat)
  trackedTimeouts : List Nat
  trackedIntervals : List Nat
  frameRequest : Option Nat
  nextId : Nat
  completionScheduled : Nat
  completeCalls : Nat
deriving DecidableEq, Repr

/-- The span at index `i` of the chosen container (`false` = part 1,
`true` = part 2). -/
def getUnit (s : GateState) (side : Bool) (i : Nat) : Option UnitState :=
  if side then s.units2[i]? else s.units1[i]?

/-- Replace the unit at index `i` of the chosen container. -/
def setUnit (s : GateState) (side : Bool) (i : Nat) (u : UnitState) : GateState :=
  if side then { s with units2 := s.units2.set i u }
  else { s with units1 := s.units1.set i u }

/-- `window.setTimeout(...)` followed by a push into the `timeouts` array:
the fresh handle becomes pending and is recorded for cleanup. -/
def scheduleTimeout (s : GateState) (kind : TimerKind) : GateState :=
  { s with pendingTimeouts := s.pendingTimeouts ++ [⟨s.nextId, kind⟩],
           trackedTimeouts := s.trackedTimeouts ++ [s.nextId],
           nextId := s.nextId + 1 }

/-- The `for (let i = 0; i < PARTICLES_PER_CHAR; i++)` loop of
`dissolveChar`: appends `PARTICLES_PER_CHAR` ash nodes to the parent
container (their gsap tweens hold no host timers). -/
def addParticles (s : GateState) (side : Bool) : GateState :=
  if side then { s with particles2 := s.particles2 + PARTICLES_PER_CHAR }
  else { s with particles1 := s.particles1 + PARTICLES_PER_CHAR }

/-- `dissolveChar(charSpan, parentEl)` of `useIntroGateAnimation.ts`:
skip if the span is in `dissolvedCharsRef.current` or carries the
`data-dissolved` mark; otherwise record it in both, spawn the particles,
fade the span (a tween, no timer), and — when
`dissolvedCharsRef.current.size >= totalCharsRef.current` — register the
completion timeout that invokes `onComplete`. -/
def dissolveChar (s : GateState) (side : Bool) (i : Nat) : GateState :=
  match getUnit s side i with
  | none => s
  | some u =>
    if u.inDissolvedSet then s
    else if u.dissolvedAttr then s
    else
      let u' := { u with inDissolvedSet := true, dissolvedAttr := true,
                         particlesSpawned := u.particlesSpawned + PARTICLES_PER_CHAR }
      let s1 := setUnit s side i u'
      let s2 := addParticles { s1 with dissolvedCount := s1.dissolvedCount + 1 } side
      if s2.totalChars ≤ s2.dissolvedCount then
        scheduleTimeout
          { s2 with completionScheduled := s2.completionScheduled + 1 }
          (.complete COMPLETE_DELAY_MS)
      else s2

/-- One iteration of the `for (const char of chars1)` / `chars2` scan in
`updateTextGlow`: skip spans already marked processed; when the horizontal
distance between the ember center and the span center is below
`GLOW_RADIUS`, mark the span processed, bump the processed counter, add the
hot class and schedule the dissolve timeout. -/
def glowVisit (emberX : Int) (pos : Nat → Int) (side : Bool)
    (s : GateState) (i : Nat) : GateState :=
  match getUnit s side i with
  | none => s
  | some u =>
    if u.processed then s
    else if (emberX - pos i).natAbs < GLOW_RADIUS then
      let s1 := setUnit s side i { u with processed := true, hot := true }
      scheduleTimeout { s1 with processedCount := s1.processedCount + 1 }
        (.dissolve side i DISSOLVE_HOT_DELAY_MS)
    else s

/-- `allChars.length`. -/
def allCharsLength (s : GateState) : Nat := s.units1.length + s.units2.length

/-- `updateTextGlow` of `useIntroGateAnimation.ts`: early-return when
`processedCount >= allChars.length`; otherwise scan `chars1` then `chars2`
against the ember center, and re-request an animation frame only when
`processedCount < allChars.length` still holds.  `emberX` is the ember's
screen center this frame, `pos1`/`pos2` give each span's screen center. -/
def updateTextGlow (emberX : Int) (pos1 pos2 : Nat → Int) (s : GateState) :
    GateState :=
  if allCharsLength s ≤ s.processedCount then s
  else
    let s1 := (List.range s.units1.length).foldl (glowVisit emberX pos1 false) s
    let s2 := (List.range s1.units2.length).foldl (glowVisit emberX pos2 true) s1
    if s2.processedCount < allCharsLength s2 then
      { s2 with frameRequest := some s2.nextId, nextId := s2.nextId + 1 }
    else s2

/-- `revealDelay` of `startScramble`:
`index * (SCRAMBLE_STAGGER * 1000) + SCRAMBLE_REVEAL_DURATION`. -/
def revealDelayMs (index : Nat) : Nat :=
  index * SCRAMBLE_STAGGER_MS + SCRAMBLE_REVEAL_DURATION

/-- One iteration of `chars2.forEach((span, index) => ...)` in
`startScramble`: skip spaces (`finalChar === NBSP`); otherwise start the
scramble interval and register the reveal timeout for `revealDelay`. -/
def scrambleVisit (s : GateState) (i : Nat) : GateState :=
  match s.units2[i]? with
  | none => s
  | some u =>
    if u.finalGlyph = NBSP then s
    else
      let intervalId := s.nextId
      let s1 := { s with
        pendingIntervals := s.pendingIntervals ++ [(intervalId, i)],
        trackedIntervals := s.trackedIntervals ++ [intervalId],
        nextId := s.nextId + 1 }
      scheduleTimeout s1 (.reveal i intervalId (revealDelayMs i))

/-- `startScramble` of `useIntroGateAnimation.ts`. -/
def startScramble (s : GateState) : GateState :=
  (List.range s.units2.length).foldl scrambleVisit s

/-- The reveal timeout's callback in `startScramble`: if the captured
interval id is still in the `intervals` array, clear the interval and
splice it out; then lock the span to its final character (the scale pulse
is a tween, no timer). -/
def applyReveal (s : GateState) (i : Nat) (intervalId : Nat) : GateState :=
  let s1 :=
    if intervalId ∈ s.trackedIntervals then
      { s with
        pendingIntervals :=
          s.pendingIntervals.filter (fun p => decide (p.1 ≠ intervalId)),
        trackedIntervals := s.trackedIntervals.erase intervalId }
    else s
  match s1.units2[i]? with
  | none => s1
  | some u => { s1 with units2 := s1.units2.set i { u with content := u.finalGlyph } }

/-- A pending timeout expires: the host removes it from the pending set and
runs its callback. -/
def fireTimeout (s : GateState) (t : Timer) : GateState :=
  let s1 := { s with pendingTimeouts := s.pendingTimeouts.erase t }
  match t.kind with
  | .dissolve side i _ => dissolveChar s1 side i
  | .complete _ => { s1 with completeCalls := s1.completeCalls + 1 }
  | .reveal i intervalId _ => applyReveal s1 i intervalId

/-- One firing of a scramble interval:
`span.textContent = getRandomChar()`. -/
def intervalTick (s : GateState) (i : Nat) (r : Nat) : GateState :=
  match s.units2[i]? with
  | none => s
  | some u =>
    { s with units2 := s.units2.set i { u with content := getRandomChar r } }

/-- Host events that can occur during a mounted run: the timeline calling
`startScramble`; the mote fade-in's `onStart` invoking `updateTextGlow`
(only while no frame is pending, as in the code, where it is called once
before any frame is requested); a pending animation frame firing and
running `updateTextGlow`; a pending timeout firing; a pending interval
ticking. -/
inductive Step : GateState → GateState → Prop
  | scrambleStart (s : GateState) : Step s (startScramble s)
  | emberActivate (s : GateState) (emberX : Int) (pos1 pos2 : Nat → Int)
      (h : s.frameRequest = none) :
      Step s (updateTextGlow emberX pos1 pos2 s)
  | frameFires (s : GateState) (fid : Nat) (emberX : Int) (pos1 pos2 : Nat → Int)
      (h : s.frameRequest = some fid) :
      Step s (updateTextGlow emberX pos1 pos2 { s with frameRequest := none })
  | timeoutFires (s : GateState) (t : Timer) (h : t ∈ s.pendingTimeouts) :
      Step s (fireTimeout s t)
  | tick (s : GateState) (p : Nat × Nat) (r : Nat) (h : p ∈ s.pendingIntervals) :
      Step s (intervalTick s p.2 r)

/-- States reachable from `s0` by host events. -/
inductive Reachable (s0 : GateState) : GateState → Prop
  | refl : Reachable s0 s0
  | tail {s s' : GateState} : Reachable s0 s → Step s s' → Reachable s0 s'

/-- The part-1 spans, in index order (`TEXT_PART_1.split('').forEach`). -/
def mkUnits1 : List UnitState := TEXT_PART_1.toList.map mkUnit1

/-- The part-2 spans, in index order (`TEXT_PART_2.split('').forEach`);
the random initial glyph of the span at index `i` is
`getRandomChar (initRand i)`, indexing the successive `Math.random()`
draws by span position. -/
def mkUnits2 (initRand : Nat → Nat) : List UnitState :=
  (List.range TEXT_PART_2.length).map
    (fun i => mkUnit2 (getRandomChar (initRand i)) (TEXT_PART_2.toList.getD i ' '))

/-- The state of the effect right after successful initialization: spans
created and appended, refs reset, `totalCharsRef.current = allChars.length`,
no timers, no frame request. -/
def initGate (initRand : Nat → Nat) : GateState :=
  let u1 := mkUnits1
  let u2 := mkUnits2 initRand
  { units1 := u1, units2 := u2, dissolvedCount := 0, processedCount := 0,
    totalChars := u1.length + u2.length, particles1 := 0, particles2 := 0,
    pendingTimeouts := [], pendingIntervals := [], trackedTimeouts := [],
    trackedIntervals := [], frameRequest := none, nextId := 0,
    completionScheduled := 0, completeCalls := 0 }

/-- The state of a controller that has done no work: no spans, no
particles, no timers, no frame request. -/
def emptyGate : GateState :=
  { units1 := [], units2 := [], dissolvedCount := 0, processedCount := 0,
    totalChars := 0, particles1 := 0, particles2 := 0,
    pendingTimeouts := [], pendingIntervals := [], trackedTimeouts := [],
    trackedIntervals := [], frameRequest := none, nextId := 0,
    completionScheduled := 0, completeCalls := 0 }

/-- Availability of the required DOM anchors at mount time. -/
structure MountEnv where
  panelReady : Bool
  text1Ready : Bool
  text2Ready : Bool
  moteReady : Bool
  leadEmberPresent : Bool
deriving DecidableEq, Repr

/-- The effect body's entry guards:
`if (!panelEl || !text1El || !text2El || !moteEl) return` and then
`if (!leadEmber) return`, both before any DOM mutation or scheduling;
only with every anchor present does the span creation and sequencing
proceed. -/
def mount (env : MountEnv) (initRand : Nat → Nat) : GateState :=
  if !(env.panelReady && env.text1Ready && env.text2Ready && env.moteReady) then
    emptyGate
  else if !env.leadEmberPresent then emptyGate
  else initGate initRand

/-- The effect's cleanup function: kill the timeline, clear every interval
and timeout recorded in the bookkeeping arrays, cancel the animation frame,
remove the hot classes and empty both text containers (`innerHTML = ''`
removes the generated character spans and ash particles alike), and reset
the refs. -/
def cleanup (s : GateState) : GateState :=
  { s with
    pendingIntervals :=
      s.pendingIntervals.filter (fun p => decide (p.1 ∉ s.trackedIntervals)),
    pendingTimeouts :=
      s.pendingTimeouts.filter (fun t => decide (t.id ∉ s.trackedTimeouts)),
    frameRequest := none,
    units1 := [], units2 := [],
    particles1 := 0, particles2 := 0,
    dissolvedCount := 0 }

/-- Number of spans currently marked processed. -/
def countProcessed (s : GateState) : Nat :=
  (s.units1 ++ s.units2).countP (·.processed)

/-- Number of spans currently in `dissolvedCharsRef.current`. -/
def countDissolved (s : GateState) : Nat :=
  (s.units1 ++ s.units2).countP (·.inDissolvedSet)

/-- Every generated span is marked processed. -/
def allProcessed (s : GateState) : Prop :=
  ∀ u ∈ s.units1 ++ s.units2, u.processed = true

/-- Number of non-blank character units across both phrases. -/
def nonBlankTotal : Nat :=
  (TEXT_PART_1.toList ++ TEXT_PART_2.toList).countP (fun c => !(c == ' '))

/-- Every pending timer handle is recorded in the cleanup bookkeeping
arrays. -/
def TimersTracked (s : GateState) : Prop :=
  (∀ t ∈ s.pendingTimeouts, t.id ∈ s.trackedTimeouts) ∧
  (∀ p ∈ s.pendingIntervals, p.1 ∈ s.trackedIntervals)

/-- The counter fields agree with the per-span flags, the two dissolve
marks stay synchronized, `totalCharsRef` holds the span count, and the
completion bookkeeping matches the dissolve count. -/
def CountsWF (s : GateState) : Prop :=
  s.processedCount = countProcessed s ∧
  s.dissolvedCount = countDissolved s ∧
  (∀ u ∈ s.units1 ++ s.units2, u.inDissolvedSet = u.dissolvedAttr) ∧
  s.totalChars = allCharsLength s ∧
  s.completionScheduled = (if s.totalChars ≤ s.dissolvedCount then 1 else 0) ∧
  s.completeCalls + s.pendingTimeouts.countP Timer.isComplete =
    s.completionScheduled

/-! ## Per-unit scramble timing (`startScramble`)

A millisecond-resolution simulation of one non-blank part-2 unit between
the synchronous start of `startScramble` (time 0) and any later time: the
interval registered with period `SCRAMBLE_SPEED` fires at each positive
multiple of `SCRAMBLE_SPEED` while it is live, and the reveal timeout fires
at `revealDelay`, clearing the interval and writing the final glyph.  When
both land on the same millisecond the interval callback (registered first)
runs first, so the reveal still lands last. -/

structure ScrTimed where
  content : Char
  intervalActive : Bool
  locks : Nat
deriving DecidableEq, Repr

/-- The events of millisecond `t` applied to a unit's timed state. -/
def scrTimedStep (rs : Nat → Nat) (finalGlyph : Char) (deadline : Nat)
    (t : Nat) (u : ScrTimed) : ScrTimed :=
  let u1 :=
    if u.intervalActive ∧ t % SCRAMBLE_SPEED = 0 then
      { u with content := getRandomChar (rs (t / SCRAMBLE_SPEED)) }
    else u
  if t = deadline then
    { u1 with intervalActive := false, content := finalGlyph,
              locks := u1.locks + 1 }
  else u1

/-- Timed state of one non-blank part-2 unit `t` milliseconds after
`startScramble` ran: at time 0 the interval is live and the span still
shows its initial random glyph `init`; the stream `rs` indexes the
successive `Math.random()` draws of the interval callback. -/
def scrTimedAt (rs : Nat → Nat) (init finalGlyph : Char) (deadline : Nat) :
    Nat → ScrTimed
  | 0 => { content := init, intervalActive := true, locks := 0 }
  | t + 1 =>
    scrTimedStep rs finalGlyph deadline (t + 1)
      (scrTimedAt rs init finalGlyph deadline t)

/-- A list of dissolve invocations against one side's units (used by the
concrete runs below). -/
def dissolveSeq (s : GateState) (side : Bool) (idxs : List Nat) : GateState :=
  idxs.foldl (fun acc i => dissolveChar acc side i) s

/-- Indices of the non-blank characters of a phrase. -/
def nonBlankIdx (text : String) : List Nat :=
  (List.range text.length).filter (fun i => !(text.toList.getD i ' ' == ' '))

/-- Indices of the blank characters of a phrase. -/
def blankIdx (text : String) : List Nat :=
  (List.range text.length).filter (fun i => text.toList.getD i ' ' == ' ')

/-- Concrete run: every non-blank unit of both phrases dissolves (in index
order), no blank unit does. -/
def runNonBlankDissolved : GateState :=
  dissolveSeq (dissolveSeq (initGate (fun _ => 0)) false (nonBlankIdx TEXT_PART_1))
    true (nonBlankIdx TEXT_PART_2)

/-- Concrete run continuing `runNonBlankDissolved`: the blank units dissolve
as well. -/
def runAllDissolved : GateState :=
  dissolveSeq (dissolveSeq runNonBlankDissolved false (blankIdx TEXT_PART_1))
    true (blankIdx TEXT_PART_2)

/-- Span centers that put every non-blank span of `text` under the ember
(at x = 0) and every blank span far away. -/
def posNonBlankUnder (text : String) : Nat → Int :=
  fun i => if text.toList.getD i ' ' == ' ' then 1000 else 0

/-- One proximity frame over the fresh state with every non-blank span in
range and every blank span out of range. -/
def frameNonBlankClaimed : GateState :=
  updateTextGlow 0 (posNonBlankUnder TEXT_PART_1) (posNonBlankUnder TEXT_PART_2)
    (initGate (fun _ => 0))

/-- One proximity frame over the fresh state with every span (blanks
included) in range of the ember. -/
def frameAllClaimed : GateState :=
  updateTextGlow 0 (fun _ => 0) (fun _ => 0) (initGate (fun _ => 0))

/-- The fresh-unit branch of `dissolveChar` (the code past the two guards),
named so proofs can reuse it: record the span in the set and the mark,
spawn the particles, and schedule completion when the dissolved count has
reached `totalCharsRef.current`. -/
def dissolveApply (s : GateState) (side : Bool) (i : Nat) (u : UnitState) :
    GateState :=
  let u' := { u with inDissolvedSet := true, dissolvedAttr := true,
                     particlesSpawned := u.particlesSpawned + PARTICLES_PER_CHAR }
  let s1 := setUnit s side i u'
  let s2 := addParticles { s1 with dissolvedCount := s1.dissolvedCount + 1 } side
  if s2.totalChars ≤ s2.dissolvedCount then
    scheduleTimeout
      { s2 with completionScheduled := s2.completionScheduled + 1 }
      (.complete COMPLETE_DELAY_MS)
  else s2

/-- Whether the `startScramble` loop starts an interval for index `j`:
the part-2 span exists and its final character is not the blank
placeholder. -/
def scrambleTargets (s : GateState) (j : Nat) : Bool :=
  match s.units2[j]? with
  | some u => decide (u.finalGlyph ≠ NBSP)
  | none => false

end Gate

/-! ## Theorems -/

namespace Gate

theorem getRevealOrder_center_eq (cmp : Nat → Nat → Bool) (length : Nat) :
    getRevealOrder cmp length .center =
      (List.range (length / 2 + 1)).flatMap (centerChunk (length / 2) length) := rfl

theorem mem_centerChunk {center length i x : Nat} :
    x ∈ centerChunk center length i ↔
      (x = center + i ∧ center + i < length) ∨
      (x = center - i ∧ center - i ≠ center + i) := by
  unfold centerChunk
  by_cases h1 : center + i < length <;> by_cases h2 : center - i ≠ center + i <;>
    simp [h1, h2]

theorem centerChunk_nodup (center length i : Nat) :
    (centerChunk center length i).Nodup := by
  unfold centerChunk
  by_cases h1 : center + i < length <;> by_cases h2 : center - i ≠ center + i <;>
    simp [h1, h2]
  · intro h; exact h2 h.symm

theorem centerOrder_nodup (length : Nat) :
    ((List.range (length / 2 + 1)).flatMap (centerChunk (length / 2) length)).Nodup := by
  rw [List.nodup_flatMap]
  refine ⟨fun i _ => centerChunk_nodup _ _ _, ?_⟩
  rw [List.pairwise_iff_getElem]
  intro a b ha hb hab
  simp only [List.getElem_range]
  intro x hxa hxb
  rw [List.length_range] at ha hb
  rcases mem_centerChunk.1 hxa with ⟨rfl, h⟩ | ⟨rfl, h⟩ <;>
    rcases mem_centerChunk.1 hxb with ⟨he, h'⟩ | ⟨he, h'⟩ <;> omega

theorem mem_centerOrder {length x : Nat} :
    x ∈ (List.range (length / 2 + 1)).flatMap (centerChunk (length / 2) length) ↔
      x < length := by
  rw [List.mem_flatMap]
  constructor
  · rintro ⟨i, hi, hx⟩
    rw [List.mem_range] at hi
    rcases mem_centerChunk.1 hx with ⟨rfl, h⟩ | ⟨rfl, h⟩ <;> omega
  · intro hx
    rcases le_or_lt (length / 2) x with hc | hc
    · refine ⟨x - length / 2, ?_, ?_⟩
      · rw [List.mem_range]; omega
      · rw [mem_centerChunk]; omega
    · refine ⟨length / 2 - x, ?_, ?_⟩
      · rw [List.mem_range]; omega
      · rw [mem_centerChunk]; omega

theorem centerOrder_perm (length : Nat) :
    List.Perm ((List.range (length / 2 + 1)).flatMap (centerChunk (length / 2) length))
      (List.range length) := by
  apply List.perm_of_nodup_nodup_toFinset_eq (centerOrder_nodup length)
    (List.nodup_range _)
  apply List.toFinset.ext
  intro x
  rw [mem_centerOrder, List.mem_range]

end Gate

/-- C10: for every length `n` and every reveal-direction policy (and any
behaviour `cmp` of the random comparator), `getRevealOrder` returns a
permutation of `{0, …, n-1}`: every character index is scheduled for reveal
exactly once. -/
theorem C10_getRevealOrder_perm (cmp : Nat → Nat → Bool) (n : Nat)
    (dir : Gate.RevealDirection) :
    List.Perm (Gate.getRevealOrder cmp n dir) (List.range n) := by
  cases dir with
  | left => exact List.Perm.refl _
  | right => exact (List.range n).reverse_perm
  | random => exact List.mergeSort_perm _ _
  | center => rw [Gate.getRevealOrder_center_eq]; exact Gate.centerOrder_perm n

/-- C7: for policy `center` on an 11-character phrase the reveal order is
index 5 first, then 6, 4, 7, 3, alternating outward to 8, 2, 9, 1, 10, 0. -/
theorem C7_center_order_eleven (cmp : Nat → Nat → Bool) :
    Gate.getRevealOrder cmp 11 .center = [5, 6, 4, 7, 3, 8, 2, 9, 1, 10, 0] := by
  rfl

/-- C9: the unlock callback fires if and only if the input, trimmed of
surrounding whitespace and lowercased, equals the target phrase; on the
key-down path this additionally requires the Enter key, and non-matching
input never fires the callback on either path. -/
theorem C9_unlock_iff_trimmed_lowercased_match (value : String) :
    (Gate.handleUnlock value = true ↔
       Gate.jsToLowerCase (Gate.jsTrim value) = Gate.TARGET) ∧
    (∀ key target, Gate.handleKeyDown key value target = true ↔
       (key = "Enter" ∧ Gate.jsToLowerCase (Gate.jsTrim value) = target)) ∧
    (Gate.jsToLowerCase (Gate.jsTrim value) ≠ Gate.TARGET →
       Gate.handleUnlock value = false ∧
       ∀ key, Gate.handleKeyDown key value Gate.TARGET = false) := by
  refine ⟨?_, ?_, ?_⟩
  · simp [Gate.handleUnlock]
  · intro key target
    simp [Gate.handleKeyDown, and_comm]
  · intro hne
    constructor
    · simp [Gate.handleUnlock, hne]
    · intro key
      simp [Gate.handleKeyDown, hne]

/-- Witness for C9 at concrete inputs: `"  Some DESTROYS  "` normalizes to
the target and fires, `"wrong"` does not fire. -/
theorem C9_witness :
    Gate.handleUnlock "  Some DESTROYS  " = true ∧
    Gate.handleUnlock "wrong" = false := by
  constructor
  · exact (C9_unlock_iff_trimmed_lowercased_match "  Some DESTROYS  ").1.mpr (by decide)
  · exact ((C9_unlock_iff_trimmed_lowercased_match "wrong").2.2 (by decide)).1

namespace Gate

theorem getElem?_set_self {α : Type} {l : List α} {i : Nat} {a b : α}
    (h : l[i]? = some a) : (l.set i b)[i]? = some b := by
  induction l generalizing i with
  | nil => simp at h
  | cons x xs ih =>
    cases i with
    | zero => simp
    | succ j => simpa using ih (by simpa using h)

theorem getUnit_setUnit_self {s : GateState} {side : Bool} {i : Nat}
    {u u' : UnitState} (h : getUnit s side i = some u) :
    getUnit (setUnit s side i u') side i = some u' := by
  cases side <;> simp only [getUnit, setUnit] at h ⊢ <;>
    simpa using getElem?_set_self h

theorem dissolveChar_of_dissolved {s : GateState} {side : Bool} {i : Nat}
    {u : UnitState} (h : getUnit s side i = some u)
    (hd : u.inDissolvedSet = true ∨ u.dissolvedAttr = true) :
    dissolveChar s side i = s := by
  unfold dissolveChar
  rw [h]
  rcases hd with hd | hd
  · simp [hd]
  · cases hs : u.inDissolvedSet <;> simp [hd]

end Gate


namespace Gate

theorem getUnit_dissolveChar_fresh {s : GateState} {side : Bool} {i : Nat}
    {u : UnitState} (h : getUnit s side i = some u)
    (h1 : u.inDissolvedSet = false) (h2 : u.dissolvedAttr = false) :
    getUnit (dissolveChar s side i) side i =
      some { u with inDissolvedSet := true, dissolvedAttr := true,
                    particlesSpawned :=
                      u.particlesSpawned + PARTICLES_PER_CHAR } := by
  unfold dissolveChar
  rw [h]
  simp only [h1, h2, Bool.false_eq_true, if_false]
  split <;> cases side <;>
    simp only [getUnit, setUnit, scheduleTimeout, addParticles] at h ⊢ <;>
    simp <;> exact getElem?_set_self h

theorem particles1_dissolveChar_fresh {s : GateState} {i : Nat}
    {u : UnitState} (h : getUnit s false i = some u)
    (h1 : u.inDissolvedSet = false) (h2 : u.dissolvedAttr = false) :
    (dissolveChar s false i).particles1 = s.particles1 + PARTICLES_PER_CHAR := by
  unfold dissolveChar
  rw [h]
  simp only [h1, h2, Bool.false_eq_true, if_false]
  split <;> simp [setUnit, scheduleTimeout, addParticles]

theorem particles2_dissolveChar_fresh {s : GateState} {i : Nat}
    {u : UnitState} (h : getUnit s true i = some u)
    (h1 : u.inDissolvedSet = false) (h2 : u.dissolvedAttr = false) :
    (dissolveChar s true i).particles2 = s.particles2 + PARTICLES_PER_CHAR := by
  unfold dissolveChar
  rw [h]
  simp only [h1, h2, Bool.false_eq_true, if_false]
  split <;> simp [setUnit, scheduleTimeout, addParticles]

end Gate

/-- C5: dissolving is idempotent per unit — the first `dissolveChar`
invocation for a unit spawns exactly `PARTICLES_PER_CHAR = 7` particles
(recorded on the unit and appended to its parent container) and marks the
unit dissolved, and every invocation for an already-dissolved unit is a
no-op leaving the state unchanged. -/
theorem C5_dissolve_idempotent (s : Gate.GateState) (side : Bool) (i : Nat)
    (u : Gate.UnitState) (h : Gate.getUnit s side i = some u) :
    ((u.inDissolvedSet = true ∨ u.dissolvedAttr = true) →
       Gate.dissolveChar s side i = s) ∧
    (u.inDissolvedSet = false → u.dissolvedAttr = false →
       Gate.PARTICLES_PER_CHAR = 7 ∧
       (∃ u', Gate.getUnit (Gate.dissolveChar s side i) side i = some u' ∧
          u'.particlesSpawned = u.particlesSpawned + Gate.PARTICLES_PER_CHAR ∧
          u'.inDissolvedSet = true ∧ u'.dissolvedAttr = true ∧
          u'.content = u.content ∧ u'.isBlank = u.isBlank) ∧
       (side = false →
          (Gate.dissolveChar s side i).particles1 =
            s.particles1 + Gate.PARTICLES_PER_CHAR) ∧
       (side = true →
          (Gate.dissolveChar s side i).particles2 =
            s.particles2 + Gate.PARTICLES_PER_CHAR) ∧
       Gate.dissolveChar (Gate.dissolveChar s side i) side i =
         Gate.dissolveChar s side i) := by
  constructor
  · exact fun hd => Gate.dissolveChar_of_dissolved h hd
  · intro h1 h2
    have hget := Gate.getUnit_dissolveChar_fresh h h1 h2
    refine ⟨rfl, ⟨_, hget, rfl, rfl, rfl, rfl, rfl⟩, ?_, ?_, ?_⟩
    · rintro rfl
      exact Gate.particles1_dissolveChar_fresh h h1 h2
    · rintro rfl
      exact Gate.particles2_dissolveChar_fresh h h1 h2
    · exact Gate.dissolveChar_of_dissolved hget (Or.inl rfl)

/-- Witness for C5: on the fresh state, dissolving the unit at index 0 of
part 1 spawns 7 particles and a second dissolve is a no-op. -/
theorem C5_witness :
    Gate.getUnit (Gate.initGate (fun _ => 0)) false 0 = some (Gate.mkUnit1 'N') ∧
    (Gate.dissolveChar (Gate.initGate (fun _ => 0)) false 0).particles1 =
      (Gate.initGate (fun _ => 0)).particles1 + Gate.PARTICLES_PER_CHAR ∧
    Gate.dissolveChar (Gate.dissolveChar (Gate.initGate (fun _ => 0)) false 0)
        false 0 =
      Gate.dissolveChar (Gate.initGate (fun _ => 0)) false 0 := by
  have h : Gate.getUnit (Gate.initGate (fun _ => 0)) false 0 =
      some (Gate.mkUnit1 'N') := by decide
  have hc := C5_dissolve_idempotent (Gate.initGate (fun _ => 0)) false 0
    (Gate.mkUnit1 'N') h
  have hfresh := hc.2 (by decide) (by decide)
  exact ⟨h, hfresh.2.2.1 rfl, hfresh.2.2.2.2⟩

/-- C8: if any required DOM anchor (panel, either text container, mote
container, or the lead ember sub-element) is unavailable at mount time, the
effect body returns before doing any work: no character spans are created,
no particles appended, no timeouts, intervals, or animation frames
registered — the controller stays in the untouched idle state. -/
theorem C8_mount_guard (env : Gate.MountEnv) (r : Nat → Nat)
    (h : ¬(env.panelReady = true ∧ env.text1Ready = true ∧
           env.text2Ready = true ∧ env.moteReady = true ∧
           env.leadEmberPresent = true)) :
    Gate.mount env r = Gate.emptyGate ∧
    Gate.emptyGate.units1 = [] ∧ Gate.emptyGate.units2 = [] ∧
    Gate.emptyGate.particles1 = 0 ∧ Gate.emptyGate.particles2 = 0 ∧
    Gate.emptyGate.pendingTimeouts = [] ∧
    Gate.emptyGate.pendingIntervals = [] ∧
    Gate.emptyGate.frameRequest = none := by
  refine ⟨?_, rfl, rfl, rfl, rfl, rfl, rfl, rfl⟩
  obtain ⟨p, t1, t2, m, l⟩ := env
  cases p <;> cases t1 <;> cases t2 <;> cases m <;> cases l <;>
    simp_all [Gate.mount]

/-- Witness for C8: a mount with every anchor except the lead ember does no
work. -/
theorem C8_witness :
    Gate.mount ⟨true, true, true, true, false⟩ (fun _ => 0) = Gate.emptyGate := by
  exact (C8_mount_guard ⟨true, true, true, true, false⟩ (fun _ => 0)
    (by decide)).1

set_option maxRecDepth 10000 in
/-- C1 counterexample: the claim that completion fires exactly when the
dissolved count equals the non-blank unit total is false on the code.  The
non-blank total is 33, but after exactly the 33 non-blank units have
dissolved the completion timeout has not been scheduled
(`completionScheduled = 0`); the completion check compares against
`totalCharsRef.current = 37`, which counts the 4 blank units, and fires
only when the blank units dissolve as well. -/
theorem C1_counterexample :
    Gate.nonBlankTotal = 33 ∧
    Gate.runNonBlankDissolved.dissolvedCount = Gate.nonBlankTotal ∧
    Gate.runNonBlankDissolved.completionScheduled = 0 ∧
    Gate.runAllDissolved.dissolvedCount = 37 ∧
    Gate.runAllDissolved.completionScheduled = 1 := by
  decide

set_option maxRecDepth 10000 in
/-- C3 counterexample: the claim that whitespace units are never marked hot
or processed and never emit particles is false on the code.  The blank unit
at index 3 of part 1 is claimed by a proximity frame (hot and processed
both set), and `dissolveChar` on it spawns the full 7 particles. -/
theorem C3_counterexample :
    (Gate.frameAllClaimed.units1.getD 3 (Gate.mkUnit1 'x')).isBlank = true ∧
    (Gate.frameAllClaimed.units1.getD 3 (Gate.mkUnit1 'x')).hot = true ∧
    (Gate.frameAllClaimed.units1.getD 3 (Gate.mkUnit1 'x')).processed = true ∧
    (Gate.dissolveChar (Gate.initGate (fun _ => 0)) false 3).particles1 = 7 := by
  decide

set_option maxRecDepth 10000 in
/-- C4 counterexample: the claim that no animation frame is scheduled once
every non-blank unit is processed is false on the code.  In the frame that
claims every non-blank unit (blanks out of ember range), all 33 non-blank
units are processed, yet `updateTextGlow` still requests another frame
because `processedCount = 33 < allChars.length = 37` counts the blank
units. -/
theorem C4_counterexample :
    (∀ u ∈ Gate.frameNonBlankClaimed.units1 ++ Gate.frameNonBlankClaimed.units2,
        u.isBlank = false → u.processed = true) ∧
    Gate.frameNonBlankClaimed.frameRequest ≠ none := by
  decide

namespace Gate

theorem countP_set_unchanged {α : Type} (p : α → Bool) {l : List α} {i : Nat}
    {a b : α} (h : l[i]? = some a) (hab : p b = p a) :
    (l.set i b).countP p = l.countP p := by
  induction l generalizing i with
  | nil => simp at h
  | cons x xs ih =>
    cases i with
    | zero =>
      simp only [List.getElem?_cons_zero, Option.some.injEq] at h
      subst h
      simp [List.countP_cons, hab]
    | succ j =>
      simp only [List.getElem?_cons_succ] at h
      simp [List.countP_cons, ih h]

theorem countP_set_flip {α : Type} (p : α → Bool) {l : List α} {i : Nat}
    {a b : α} (h : l[i]? = some a) (ha : p a = false) (hb : p b = true) :
    (l.set i b).countP p = l.countP p + 1 := by
  induction l generalizing i with
  | nil => simp at h
  | cons x xs ih =>
    cases i with
    | zero =>
      simp only [List.getElem?_cons_zero, Option.some.injEq] at h
      subst h
      simp [List.countP_cons, ha, hb]
    | succ j =>
      simp only [List.getElem?_cons_succ] at h
      simp only [List.set_cons_succ, List.countP_cons, ih h]
      omega

theorem countP_lt_length_of_not {α : Type} (p : α → Bool) {l : List α} {i : Nat}
    {a : α} (h : l[i]? = some a) (ha : p a = false) :
    l.countP p < l.length := by
  induction l generalizing i with
  | nil => simp at h
  | cons x xs ih =>
    cases i with
    | zero =>
      simp only [List.getElem?_cons_zero, Option.some.injEq] at h
      subst h
      simp only [List.countP_cons, ha, Bool.false_eq_true, if_false,
        List.length_cons]
      have := List.countP_le_length (p := p) (l := xs)
      omega
    | succ j =>
      simp only [List.getElem?_cons_succ] at h
      simp only [List.countP_cons, List.length_cons]
      have := ih h
      split <;> omega

theorem countP_erase_mem {α : Type} [DecidableEq α] (p : α → Bool) {l : List α}
    {a : α} (h : a ∈ l) :
    (l.erase a).countP p = l.countP p - (if p a then 1 else 0) := by
  induction l with
  | nil => simp at h
  | cons x xs ih =>
    by_cases hxa : x = a
    · subst hxa
      rw [List.erase_cons_head, List.countP_cons]
      split <;> omega
    · have hmem : a ∈ xs := by
        rcases List.mem_cons.1 h with h' | h'
        · exact absurd h'.symm hxa
        · exact h'
      rw [List.erase_cons_tail (by simpa using hxa)]
      simp only [List.countP_cons, ih hmem]
      have hle : (if p a then 1 else 0) ≤ xs.countP p := by
        split
        · exact Nat.succ_le_of_lt (List.countP_pos_iff.2 ⟨a, hmem, by assumption⟩)
        · exact Nat.zero_le _
      omega

end Gate

namespace Gate

theorem setUnit_false (s : GateState) (i : Nat) (u : UnitState) :
    setUnit s false i u = { s with units1 := s.units1.set i u } := rfl

theorem setUnit_true (s : GateState) (i : Nat) (u : UnitState) :
    setUnit s true i u = { s with units2 := s.units2.set i u } := rfl

theorem addParticles_false (s : GateState) :
    addParticles s false = { s with particles1 := s.particles1 + PARTICLES_PER_CHAR } := rfl

theorem addParticles_true (s : GateState) :
    addParticles s true = { s with particles2 := s.particles2 + PARTICLES_PER_CHAR } := rfl

theorem dissolveChar_timers (s : GateState) (side : Bool) (i : Nat) :
    (((dissolveChar s side i).pendingTimeouts = s.pendingTimeouts ∧
      (dissolveChar s side i).trackedTimeouts = s.trackedTimeouts) ∨
     ((dissolveChar s side i).pendingTimeouts =
        s.pendingTimeouts ++ [⟨s.nextId, .complete COMPLETE_DELAY_MS⟩] ∧
      (dissolveChar s side i).trackedTimeouts =
        s.trackedTimeouts ++ [s.nextId])) ∧
    (dissolveChar s side i).pendingIntervals = s.pendingIntervals ∧
    (dissolveChar s side i).trackedIntervals = s.trackedIntervals := by
  unfold dissolveChar
  cases hg : getUnit s side i with
  | none => exact ⟨Or.inl ⟨rfl, rfl⟩, rfl, rfl⟩
  | some u =>
    cases h1 : u.inDissolvedSet with
    | true =>
      simp [h1]
    | false =>
      cases h2 : u.dissolvedAttr with
      | true =>
        simp [h1, h2]
      | false =>
        simp only [h1, h2, Bool.false_eq_true, if_false]
        cases side
        · simp only [setUnit_false, addParticles_false]
          split
          · exact ⟨Or.inr ⟨rfl, rfl⟩, rfl, rfl⟩
          · exact ⟨Or.inl ⟨rfl, rfl⟩, rfl, rfl⟩
        · simp only [setUnit_true, addParticles_true]
          split
          · exact ⟨Or.inr ⟨rfl, rfl⟩, rfl, rfl⟩
          · exact ⟨Or.inl ⟨rfl, rfl⟩, rfl, rfl⟩

end Gate
namespace Gate

theorem pending_append_pair {pt : List Timer} {tt : List Nat}
    (h : ∀ t ∈ pt, t.id ∈ tt) (n : Nat) (k : TimerKind) :
    ∀ t ∈ pt ++ [⟨n, k⟩], t.id ∈ tt ++ [n] := by
  intro t ht
  rcases List.mem_append.1 ht with ht | ht
  · exact List.mem_append_left _ (h t ht)
  · simp only [List.mem_singleton] at ht
    subst ht
    exact List.mem_append_right _ (by simp)

theorem TT_dissolveChar {s : GateState} {side : Bool} {i : Nat}
    (h : TimersTracked s) : TimersTracked (dissolveChar s side i) := by
  obtain ⟨htimers, hpi, hti⟩ := dissolveChar_timers s side i
  refine ⟨?_, ?_⟩
  · rcases htimers with ⟨hp, ht⟩ | ⟨hp, ht⟩
    · rw [hp, ht]; exact h.1
    · rw [hp, ht]; exact pending_append_pair h.1 _ _
  · rw [hpi, hti]; exact h.2

theorem glowVisit_chars (e : Int) (pos : Nat → Int) (side : Bool)
    (s : GateState) (i : Nat) :
    glowVisit e pos side s i = s ∨
    ∃ u, getUnit s side i = some u ∧ u.processed = false ∧
      glowVisit e pos side s i =
        scheduleTimeout
          { setUnit s side i { u with processed := true, hot := true } with
              processedCount :=
                (setUnit s side i
                  { u with processed := true, hot := true }).processedCount + 1 }
          (.dissolve side i DISSOLVE_HOT_DELAY_MS) := by
  unfold glowVisit
  cases hg : getUnit s side i with
  | none => exact Or.inl rfl
  | some u =>
    cases h1 : u.processed with
    | true => simp [h1]
    | false =>
      simp only [h1, Bool.false_eq_true, if_false]
      split
      · exact Or.inr ⟨u, rfl, h1, rfl⟩
      · exact Or.inl rfl

theorem TT_glowVisit {e : Int} {pos : Nat → Int} {side : Bool}
    {s : GateState} {i : Nat} (h : TimersTracked s) :
    TimersTracked (glowVisit e pos side s i) := by
  rcases glowVisit_chars e pos side s i with heq | ⟨u, hu, hup, heq⟩
  · rw [heq]; exact h
  · rw [heq]
    cases side <;> exact ⟨pending_append_pair h.1 _ _, h.2⟩

theorem TT_glowFold {e : Int} {pos : Nat → Int} {side : Bool}
    (idxs : List Nat) {s : GateState} (h : TimersTracked s) :
    TimersTracked (idxs.foldl (glowVisit e pos side) s) := by
  induction idxs generalizing s with
  | nil => exact h
  | cons i rest ih => exact ih (TT_glowVisit h)

theorem TT_frameBranch {s2 : GateState} (h : TimersTracked s2) :
    TimersTracked
      (if s2.processedCount < allCharsLength s2 then
        { s2 with frameRequest := some s2.nextId, nextId := s2.nextId + 1 }
      else s2) := by
  split
  · exact ⟨h.1, h.2⟩
  · exact h

theorem TT_updateTextGlow {e : Int} {p1 p2 : Nat → Int} {s : GateState}
    (h : TimersTracked s) : TimersTracked (updateTextGlow e p1 p2 s) := by
  unfold updateTextGlow
  split
  · exact h
  · exact TT_frameBranch
      (@TT_glowFold e p2 true
        (List.range
          (((List.range s.units1.length).foldl (glowVisit e p1 false) s).units2.length))
        _
        (@TT_glowFold e p1 false (List.range s.units1.length) _ h))

theorem scrambleVisit_chars (s : GateState) (i : Nat) :
    scrambleVisit s i = s ∨
    ∃ u, s.units2[i]? = some u ∧ ¬(u.finalGlyph = NBSP) ∧
      scrambleVisit s i =
        scheduleTimeout
          { s with
              pendingIntervals := s.pendingIntervals ++ [(s.nextId, i)],
              trackedIntervals := s.trackedIntervals ++ [s.nextId],
              nextId := s.nextId + 1 }
          (.reveal i s.nextId (revealDelayMs i)) := by
  unfold scrambleVisit
  cases hg : s.units2[i]? with
  | none => exact Or.inl rfl
  | some u =>
    by_cases hb : u.finalGlyph = NBSP
    · simp [hb]
    · right
      refine ⟨u, rfl, hb, ?_⟩
      simp [hb]

theorem TT_scrambleVisit {s : GateState} {i : Nat} (h : TimersTracked s) :
    TimersTracked (scrambleVisit s i) := by
  rcases scrambleVisit_chars s i with heq | ⟨u, hu, hb, heq⟩
  · rw [heq]; exact h
  · rw [heq]
    constructor
    · exact pending_append_pair h.1 _ _
    · intro p hp
      rcases List.mem_append.1 hp with hp | hp
      · exact List.mem_append_left _ (h.2 p hp)
      · simp only [List.mem_singleton] at hp
        subst hp
        exact List.mem_append_right _ (by simp)

theorem TT_startScramble {s : GateState} (h : TimersTracked s) :
    TimersTracked (startScramble s) := by
  unfold startScramble
  generalize (List.range s.units2.length) = idxs
  induction idxs generalizing s with
  | nil => exact h
  | cons i rest ih => exact ih (TT_scrambleVisit h)

theorem TT_applyReveal {s : GateState} {i : Nat} {intervalId : Nat}
    (h : TimersTracked s) : TimersTracked (applyReveal s i intervalId) := by
  unfold applyReveal
  have key : ∀ s' : GateState, TimersTracked s' →
      TimersTracked (match s'.units2[i]? with
        | none => s'
        | some u =>
          { s' with units2 := s'.units2.set i { u with content := u.finalGlyph } }) := by
    intro s' h'
    cases s'.units2[i]? with
    | none => exact h'
    | some u => exact h'
  apply key
  split
  · refine ⟨h.1, ?_⟩
    intro p hp
    simp only [List.mem_filter, decide_eq_true_eq] at hp
    exact (List.mem_erase_of_ne hp.2).2 (h.2 p hp.1)
  · exact h

theorem TT_fireTimeout {s : GateState} {t : Timer} (h : TimersTracked s) :
    TimersTracked (fireTimeout s t) := by
  have herase :
      TimersTracked { s with pendingTimeouts := s.pendingTimeouts.erase t } :=
    ⟨fun t' ht' => h.1 t' (List.mem_of_mem_erase ht'), h.2⟩
  unfold fireTimeout
  cases t.kind with
  | dissolve side i d => exact TT_dissolveChar herase
  | complete d => exact herase
  | reveal i intervalId d => exact TT_applyReveal herase

theorem TT_intervalTick {s : GateState} {i r : Nat} (h : TimersTracked s) :
    TimersTracked (intervalTick s i r) := by
  unfold intervalTick
  cases hg : s.units2[i]? with
  | none => exact h
  | some u => exact h

theorem TT_step {s s' : GateState} (hstep : Step s s') (h : TimersTracked s) :
    TimersTracked s' := by
  cases hstep with
  | scrambleStart => exact TT_startScramble h
  | emberActivate => exact TT_updateTextGlow h
  | frameFires => exact TT_updateTextGlow h
  | timeoutFires => exact TT_fireTimeout h
  | tick => exact TT_intervalTick h

theorem TT_initGate (r : Nat → Nat) : TimersTracked (initGate r) :=
  ⟨fun t ht => absurd ht (List.not_mem_nil t),
   fun p hp => absurd hp (List.not_mem_nil p)⟩

theorem TT_reachable {r : Nat → Nat} {s : GateState}
    (h : Reachable (initGate r) s) : TimersTracked s := by
  induction h with
  | refl => exact TT_initGate r
  | tail hr hstep ih => exact TT_step hstep ih

end Gate

/-- C2: from any state reachable during a mounted run (scattering,
scrambling, or emitter-active), running the effect's cleanup leaves zero
pending timeouts, zero pending intervals, no pending animation-frame
request, and both text containers empty of generated character spans and
ash particles — a subsequent mount starts from the same empty surface as a
first mount. -/
theorem C2_teardown (r : Nat → Nat) (s : Gate.GateState)
    (hreach : Gate.Reachable (Gate.initGate r) s) :
    (Gate.cleanup s).pendingTimeouts = [] ∧
    (Gate.cleanup s).pendingIntervals = [] ∧
    (Gate.cleanup s).frameRequest = none ∧
    (Gate.cleanup s).units1 = [] ∧
    (Gate.cleanup s).units2 = [] ∧
    (Gate.cleanup s).particles1 = 0 ∧
    (Gate.cleanup s).particles2 = 0 := by
  have htt := Gate.TT_reachable hreach
  refine ⟨?_, ?_, rfl, rfl, rfl, rfl, rfl⟩
  · simp only [Gate.cleanup, List.filter_eq_nil_iff, decide_eq_true_eq]
    intro t ht hnot
    exact hnot (htt.1 t ht)
  · simp only [Gate.cleanup, List.filter_eq_nil_iff, decide_eq_true_eq]
    intro p hp hnot
    exact hnot (htt.2 p hp)

/-- Witness for C2: cleanup after a run that started the scramble and let
one proximity frame pass leaves everything empty. -/
theorem C2_witness :
    Gate.Reachable (Gate.initGate (fun _ => 0))
      (Gate.startScramble (Gate.initGate (fun _ => 0))) ∧
    (Gate.cleanup (Gate.startScramble (Gate.initGate (fun _ => 0)))).pendingTimeouts
      = [] ∧
    (Gate.cleanup (Gate.startScramble (Gate.initGate (fun _ => 0)))).pendingIntervals
      = [] := by
  have hr : Gate.Reachable (Gate.initGate (fun _ => 0))
      (Gate.startScramble (Gate.initGate (fun _ => 0))) :=
    Gate.Reachable.tail Gate.Reachable.refl (Gate.Step.scrambleStart _)
  have hc := C2_teardown (fun _ => 0) _ hr
  exact ⟨hr, hc.1, hc.2.1⟩
namespace Gate

theorem setUnit_scalars (s : GateState) (side : Bool) (i : Nat) (u' : UnitState) :
    (setUnit s side i u').processedCount = s.processedCount ∧
    (setUnit s side i u').dissolvedCount = s.dissolvedCount ∧
    (setUnit s side i u').totalChars = s.totalChars ∧
    (setUnit s side i u').completionScheduled = s.completionScheduled ∧
    (setUnit s side i u').completeCalls = s.completeCalls ∧
    (setUnit s side i u').pendingTimeouts = s.pendingTimeouts ∧
    (setUnit s side i u').nextId = s.nextId ∧
    (setUnit s side i u').frameRequest = s.frameRequest := by
  cases side <;> exact ⟨rfl, rfl, rfl, rfl, rfl, rfl, rfl, rfl⟩

theorem addParticles_scalars (s : GateState) (side : Bool) :
    (addParticles s side).units1 = s.units1 ∧
    (addParticles s side).units2 = s.units2 ∧
    (addParticles s side).processedCount = s.processedCount ∧
    (addParticles s side).dissolvedCount = s.dissolvedCount ∧
    (addParticles s side).totalChars = s.totalChars ∧
    (addParticles s side).completionScheduled = s.completionScheduled ∧
    (addParticles s side).completeCalls = s.completeCalls ∧
    (addParticles s side).pendingTimeouts = s.pendingTimeouts ∧
    (addParticles s side).nextId = s.nextId ∧
    (addParticles s side).frameRequest = s.frameRequest := by
  cases side <;>
    exact ⟨rfl, rfl, rfl, rfl, rfl, rfl, rfl, rfl, rfl, rfl⟩

theorem getUnit_mem {s : GateState} {side : Bool} {i : Nat} {u : UnitState}
    (h : getUnit s side i = some u) : u ∈ s.units1 ++ s.units2 := by
  cases side
  · exact List.mem_append_left _ (List.getElem?_mem h)
  · exact List.mem_append_right _ (List.getElem?_mem h)

theorem countProcessed_setUnit {s : GateState} {side : Bool} {i : Nat}
    {u u' : UnitState} (h : getUnit s side i = some u)
    (he : u'.processed = u.processed) :
    countProcessed (setUnit s side i u') = countProcessed s := by
  cases side
  · simp only [setUnit_false, countProcessed, List.countP_append]
    rw [countP_set_unchanged _ (h : s.units1[i]? = some u) he]
  · simp only [setUnit_true, countProcessed, List.countP_append]
    rw [countP_set_unchanged _ (h : s.units2[i]? = some u) he]

theorem countProcessed_setUnit_flip {s : GateState} {side : Bool} {i : Nat}
    {u u' : UnitState} (h : getUnit s side i = some u)
    (ha : u.processed = false) (hb : u'.processed = true) :
    countProcessed (setUnit s side i u') = countProcessed s + 1 := by
  cases side
  · simp only [setUnit_false, countProcessed, List.countP_append]
    rw [countP_set_flip (fun v => v.processed) (h : s.units1[i]? = some u) ha hb]
    omega
  · simp only [setUnit_true, countProcessed, List.countP_append]
    rw [countP_set_flip (fun v => v.processed) (h : s.units2[i]? = some u) ha hb]
    omega

theorem countDissolved_setUnit {s : GateState} {side : Bool} {i : Nat}
    {u u' : UnitState} (h : getUnit s side i = some u)
    (he : u'.inDissolvedSet = u.inDissolvedSet) :
    countDissolved (setUnit s side i u') = countDissolved s := by
  cases side
  · simp only [setUnit_false, countDissolved, List.countP_append]
    rw [countP_set_unchanged _ (h : s.units1[i]? = some u) he]
  · simp only [setUnit_true, countDissolved, List.countP_append]
    rw [countP_set_unchanged _ (h : s.units2[i]? = some u) he]

theorem countDissolved_setUnit_flip {s : GateState} {side : Bool} {i : Nat}
    {u u' : UnitState} (h : getUnit s side i = some u)
    (ha : u.inDissolvedSet = false) (hb : u'.inDissolvedSet = true) :
    countDissolved (setUnit s side i u') = countDissolved s + 1 := by
  cases side
  · simp only [setUnit_false, countDissolved, List.countP_append]
    rw [countP_set_flip (fun v => v.inDissolvedSet) (h : s.units1[i]? = some u) ha hb]
    omega
  · simp only [setUnit_true, countDissolved, List.countP_append]
    rw [countP_set_flip (fun v => v.inDissolvedSet) (h : s.units2[i]? = some u) ha hb]
    omega

theorem allCharsLength_setUnit (s : GateState) (side : Bool) (i : Nat)
    (u' : UnitState) :
    allCharsLength (setUnit s side i u') = allCharsLength s := by
  cases side <;>
    simp [setUnit_false, setUnit_true, allCharsLength]

theorem sync_setUnit {s : GateState} {side : Bool} {i : Nat} {u' : UnitState}
    (w3 : ∀ v ∈ s.units1 ++ s.units2, v.inDissolvedSet = v.dissolvedAttr)
    (hu' : u'.inDissolvedSet = u'.dissolvedAttr) :
    ∀ v ∈ (setUnit s side i u').units1 ++ (setUnit s side i u').units2,
      v.inDissolvedSet = v.dissolvedAttr := by
  cases side <;> simp only [setUnit_false, setUnit_true] <;> intro v hv <;>
    rcases List.mem_append.1 hv with hv | hv
  · rcases List.mem_or_eq_of_mem_set hv with hv | rfl
    · exact w3 v (List.mem_append_left _ hv)
    · exact hu'
  · exact w3 v (List.mem_append_right _ hv)
  · exact w3 v (List.mem_append_left _ hv)
  · rcases List.mem_or_eq_of_mem_set hv with hv | rfl
    · exact w3 v (List.mem_append_right _ hv)
    · exact hu'

theorem countDissolved_lt {s : GateState} {side : Bool} {i : Nat}
    {u : UnitState} (h : getUnit s side i = some u)
    (h1 : u.inDissolvedSet = false) :
    countDissolved s < allCharsLength s := by
  cases side
  · have := countP_lt_length_of_not (fun v => v.inDissolvedSet)
      (h : s.units1[i]? = some u) h1
    have h2 := List.countP_le_length (p := fun v : UnitState => v.inDissolvedSet)
      (l := s.units2)
    simp only [countDissolved, allCharsLength, List.countP_append]
    omega
  · have := countP_lt_length_of_not (fun v => v.inDissolvedSet)
      (h : s.units2[i]? = some u) h1
    have h2 := List.countP_le_length (p := fun v : UnitState => v.inDissolvedSet)
      (l := s.units1)
    simp only [countDissolved, allCharsLength, List.countP_append]
    omega

theorem allProcessed_iff (s : GateState) :
    allProcessed s ↔ countProcessed s = allCharsLength s := by
  unfold allProcessed countProcessed allCharsLength
  rw [← List.length_append]
  exact List.countP_eq_length.symm

end Gate
namespace Gate

theorem dissolveChar_none {s : GateState} {side : Bool} {i : Nat}
    (hg : getUnit s side i = none) : dissolveChar s side i = s := by
  unfold dissolveChar
  rw [hg]

theorem dissolveChar_eq_apply {s : GateState} {side : Bool} {i : Nat}
    {u : UnitState} (hg : getUnit s side i = some u)
    (h1 : u.inDissolvedSet = false) (h2 : u.dissolvedAttr = false) :
    dissolveChar s side i = dissolveApply s side i u := by
  unfold dissolveChar dissolveApply
  rw [hg]
  simp only [h1, h2, Bool.false_eq_true, if_false]

theorem CW_dissolveApply {s : GateState} {side : Bool} {i : Nat}
    {u : UnitState} (hwf : CountsWF s) (hg : getUnit s side i = some u)
    (h1 : u.inDissolvedSet = false) :
    CountsWF (dissolveApply s side i u) := by
  obtain ⟨w1, w2, w3, w4, w5, w6⟩ := hwf
  have hdlt : s.dissolvedCount < s.totalChars := by
    rw [w2, w4]
    exact countDissolved_lt hg h1
  have h0 : s.completionScheduled = 0 := by
    rw [w5, if_neg (by omega)]
  have hcp := @countProcessed_setUnit s side i u
    { u with inDissolvedSet := true, dissolvedAttr := true,
             particlesSpawned := u.particlesSpawned + PARTICLES_PER_CHAR }
    hg rfl
  have hcd := @countDissolved_setUnit_flip s side i u
    { u with inDissolvedSet := true, dissolvedAttr := true,
             particlesSpawned := u.particlesSpawned + PARTICLES_PER_CHAR }
    hg h1 rfl
  have hal := allCharsLength_setUnit s side i
    { u with inDissolvedSet := true, dissolvedAttr := true,
             particlesSpawned := u.particlesSpawned + PARTICLES_PER_CHAR }
  have hsy := @sync_setUnit s side i
    { u with inDissolvedSet := true, dissolvedAttr := true,
             particlesSpawned := u.particlesSpawned + PARTICLES_PER_CHAR }
    w3 rfl
  unfold dissolveApply
  cases side
  · simp only [setUnit_false, addParticles_false]
    split
    · rename_i hcond
      have hcond' : s.totalChars ≤ s.dissolvedCount + 1 := hcond
      refine ⟨w1.trans hcp.symm, ?_, hsy, w4.trans hal.symm, ?_, ?_⟩
      · exact (congrArg (· + 1) w2).trans hcd.symm
      · show s.completionScheduled + 1 =
          if s.totalChars ≤ s.dissolvedCount + 1 then 1 else 0
        rw [if_pos hcond']
        omega
      · show s.completeCalls +
            List.countP Timer.isComplete
              (s.pendingTimeouts ++ [⟨s.nextId, .complete COMPLETE_DELAY_MS⟩]) =
          s.completionScheduled + 1
        rw [List.countP_append]
        have hone : List.countP Timer.isComplete
            [(⟨s.nextId, .complete COMPLETE_DELAY_MS⟩ : Timer)] = 1 := by
          simp [Timer.isComplete]
        rw [hone]
        omega
    · rename_i hcond
      have hcond' : ¬(s.totalChars ≤ s.dissolvedCount + 1) := hcond
      refine ⟨w1.trans hcp.symm, ?_, hsy, w4.trans hal.symm, ?_, ?_⟩
      · exact (congrArg (· + 1) w2).trans hcd.symm
      · show s.completionScheduled =
          if s.totalChars ≤ s.dissolvedCount + 1 then 1 else 0
        rw [if_neg hcond']
        omega
      · show s.completeCalls +
            List.countP Timer.isComplete s.pendingTimeouts =
          s.completionScheduled
        exact w6
  · simp only [setUnit_true, addParticles_true]
    split
    · rename_i hcond
      have hcond' : s.totalChars ≤ s.dissolvedCount + 1 := hcond
      refine ⟨w1.trans hcp.symm, ?_, hsy, w4.trans hal.symm, ?_, ?_⟩
      · exact (congrArg (· + 1) w2).trans hcd.symm
      · show s.completionScheduled + 1 =
          if s.totalChars ≤ s.dissolvedCount + 1 then 1 else 0
        rw [if_pos hcond']
        omega
      · show s.completeCalls +
            List.countP Timer.isComplete
              (s.pendingTimeouts ++ [⟨s.nextId, .complete COMPLETE_DELAY_MS⟩]) =
          s.completionScheduled + 1
        rw [List.countP_append]
        have hone : List.countP Timer.isComplete
            [(⟨s.nextId, .complete COMPLETE_DELAY_MS⟩ : Timer)] = 1 := by
          simp [Timer.isComplete]
        rw [hone]
        omega
    · rename_i hcond
      have hcond' : ¬(s.totalChars ≤ s.dissolvedCount + 1) := hcond
      refine ⟨w1.trans hcp.symm, ?_, hsy, w4.trans hal.symm, ?_, ?_⟩
      · exact (congrArg (· + 1) w2).trans hcd.symm
      · show s.completionScheduled =
          if s.totalChars ≤ s.dissolvedCount + 1 then 1 else 0
        rw [if_neg hcond']
        omega
      · show s.completeCalls +
            List.countP Timer.isComplete s.pendingTimeouts =
          s.completionScheduled
        exact w6

theorem CW_dissolveChar {s : GateState} {side : Bool} {i : Nat}
    (hwf : CountsWF s) : CountsWF (dissolveChar s side i) := by
  cases hg : getUnit s side i with
  | none => rw [dissolveChar_none hg]; exact hwf
  | some u =>
    by_cases h1 : u.inDissolvedSet = true
    · rw [dissolveChar_of_dissolved hg (Or.inl h1)]; exact hwf
    · by_cases h2 : u.dissolvedAttr = true
      · rw [dissolveChar_of_dissolved hg (Or.inr h2)]; exact hwf
      · have h1' : u.inDissolvedSet = false := by
          revert h1; cases u.inDissolvedSet <;> simp
        have h2' : u.dissolvedAttr = false := by
          revert h2; cases u.dissolvedAttr <;> simp
        rw [dissolveChar_eq_apply hg h1' h2']
        exact CW_dissolveApply hwf hg h1'

end Gate
namespace Gate

theorem CW_glowVisit {e : Int} {pos : Nat → Int} {side : Bool}
    {s : GateState} {i : Nat} (hwf : CountsWF s) :
    CountsWF (glowVisit e pos side s i) := by
  rcases glowVisit_chars e pos side s i with heq | ⟨u, hu, hup, heq⟩
  · rw [heq]; exact hwf
  · rw [heq]
    obtain ⟨w1, w2, w3, w4, w5, w6⟩ := hwf
    have hsc := setUnit_scalars s side i { u with processed := true, hot := true }
    have hcpf := @countProcessed_setUnit_flip s side i u
      { u with processed := true, hot := true } hu hup rfl
    have hcd := @countDissolved_setUnit s side i u
      { u with processed := true, hot := true } hu rfl
    have hal := allCharsLength_setUnit s side i
      { u with processed := true, hot := true }
    have husync : u.inDissolvedSet = u.dissolvedAttr := w3 u (getUnit_mem hu)
    refine ⟨?_, ?_, ?_, ?_, ?_, ?_⟩
    · show (setUnit s side i { u with processed := true, hot := true }).processedCount + 1 =
        countProcessed (setUnit s side i { u with processed := true, hot := true })
      rw [hsc.1, hcpf, w1]
    · show (setUnit s side i { u with processed := true, hot := true }).dissolvedCount =
        countDissolved (setUnit s side i { u with processed := true, hot := true })
      rw [hsc.2.1, hcd, w2]
    · exact sync_setUnit w3 husync
    · show (setUnit s side i { u with processed := true, hot := true }).totalChars =
        allCharsLength (setUnit s side i { u with processed := true, hot := true })
      rw [hsc.2.2.1, hal, w4]
    · show (setUnit s side i { u with processed := true, hot := true }).completionScheduled =
        if (setUnit s side i { u with processed := true, hot := true }).totalChars ≤
            (setUnit s side i { u with processed := true, hot := true }).dissolvedCount
        then 1 else 0
      rw [hsc.2.2.1, hsc.2.1, hsc.2.2.2.1, w5]
    · show (setUnit s side i { u with processed := true, hot := true }).completeCalls +
        List.countP Timer.isComplete
          ((setUnit s side i { u with processed := true, hot := true }).pendingTimeouts ++
            [⟨(setUnit s side i { u with processed := true, hot := true }).nextId,
              .dissolve side i DISSOLVE_HOT_DELAY_MS⟩]) =
        (setUnit s side i { u with processed := true, hot := true }).completionScheduled
      rw [hsc.2.2.2.2.1, hsc.2.2.2.2.2.1, hsc.2.2.2.1, List.countP_append]
      have hzero : List.countP Timer.isComplete
          [(⟨(setUnit s side i { u with processed := true, hot := true }).nextId,
             .dissolve side i DISSOLVE_HOT_DELAY_MS⟩ : Timer)] = 0 := by
        simp [Timer.isComplete]
      rw [hzero]
      omega

theorem CW_glowFold {e : Int} {pos : Nat → Int} {side : Bool}
    (idxs : List Nat) {s : GateState} (hwf : CountsWF s) :
    CountsWF (idxs.foldl (glowVisit e pos side) s) := by
  induction idxs generalizing s with
  | nil => exact hwf
  | cons i rest ih => exact ih (CW_glowVisit hwf)

theorem CW_frameBranch {s2 : GateState} (h : CountsWF s2) :
    CountsWF
      (if s2.processedCount < allCharsLength s2 then
        { s2 with frameRequest := some s2.nextId, nextId := s2.nextId + 1 }
      else s2) := by
  split
  · exact ⟨h.1, h.2.1, h.2.2.1, h.2.2.2.1, h.2.2.2.2.1, h.2.2.2.2.2⟩
  · exact h

theorem CW_updateTextGlow {e : Int} {p1 p2 : Nat → Int} {s : GateState}
    (hwf : CountsWF s) : CountsWF (updateTextGlow e p1 p2 s) := by
  unfold updateTextGlow
  split
  · exact hwf
  · exact CW_frameBranch
      (CW_glowFold
        (List.range
          (((List.range s.units1.length).foldl (glowVisit e p1 false) s).units2.length))
        (CW_glowFold (List.range s.units1.length) hwf))

theorem CW_scrambleVisit {s : GateState} {i : Nat} (hwf : CountsWF s) :
    CountsWF (scrambleVisit s i) := by
  rcases scrambleVisit_chars s i with heq | ⟨u, hu, hb, heq⟩
  · rw [heq]; exact hwf
  · rw [heq]
    obtain ⟨w1, w2, w3, w4, w5, w6⟩ := hwf
    refine ⟨w1, w2, w3, w4, w5, ?_⟩
    show s.completeCalls +
        List.countP Timer.isComplete
          (s.pendingTimeouts ++ [⟨s.nextId + 1, .reveal i s.nextId (revealDelayMs i)⟩]) =
      s.completionScheduled
    rw [List.countP_append]
    have hzero : List.countP Timer.isComplete
        [(⟨s.nextId + 1, .reveal i s.nextId (revealDelayMs i)⟩ : Timer)] = 0 := by
      simp [Timer.isComplete]
    rw [hzero]
    omega

theorem CW_startScramble {s : GateState} (hwf : CountsWF s) :
    CountsWF (startScramble s) := by
  unfold startScramble
  generalize (List.range s.units2.length) = idxs
  induction idxs generalizing s with
  | nil => exact hwf
  | cons i rest ih => exact ih (CW_scrambleVisit hwf)

theorem CW_setContent {s : GateState} {i : Nat} {u : UnitState} {c : Char}
    (hu : s.units2[i]? = some u) (hwf : CountsWF s) :
    CountsWF { s with units2 := s.units2.set i { u with content := c } } := by
  obtain ⟨w1, w2, w3, w4, w5, w6⟩ := hwf
  have hg : getUnit s true i = some u := hu
  have hcp := @countProcessed_setUnit s true i u { u with content := c } hg rfl
  have hcd := @countDissolved_setUnit s true i u { u with content := c } hg rfl
  have hal := allCharsLength_setUnit s true i { u with content := c }
  have husync : u.inDissolvedSet = u.dissolvedAttr := w3 u (getUnit_mem hg)
  exact ⟨w1.trans hcp.symm, w2.trans hcd.symm,
    @sync_setUnit s true i { u with content := c } w3 husync,
    w4.trans hal.symm, w5, w6⟩

theorem CW_applyReveal {s : GateState} {i : Nat} {intervalId : Nat}
    (hwf : CountsWF s) : CountsWF (applyReveal s i intervalId) := by
  unfold applyReveal
  have key : ∀ s' : GateState, CountsWF s' →
      CountsWF (match s'.units2[i]? with
        | none => s'
        | some u =>
          { s' with units2 := s'.units2.set i { u with content := u.finalGlyph } }) := by
    intro s' h'
    cases hu : s'.units2[i]? with
    | none => exact h'
    | some u => exact CW_setContent hu h'
  apply key
  split
  · exact ⟨hwf.1, hwf.2.1, hwf.2.2.1, hwf.2.2.2.1, hwf.2.2.2.2.1, hwf.2.2.2.2.2⟩
  · exact hwf

theorem CW_fireTimeout {s : GateState} {t : Timer}
    (ht : t ∈ s.pendingTimeouts) (hwf : CountsWF s) :
    CountsWF (fireTimeout s t) := by
  obtain ⟨w1, w2, w3, w4, w5, w6⟩ := hwf
  obtain ⟨tid, kind⟩ := t
  cases kind with
  | dissolve side i d =>
    have hs1 : CountsWF
        { s with pendingTimeouts := s.pendingTimeouts.erase ⟨tid, .dissolve side i d⟩ } := by
      refine ⟨w1, w2, w3, w4, w5, ?_⟩
      show s.completeCalls +
          List.countP Timer.isComplete
            (s.pendingTimeouts.erase ⟨tid, .dissolve side i d⟩) =
        s.completionScheduled
      rw [countP_erase_mem _ ht]
      have hc : Timer.isComplete (⟨tid, .dissolve side i d⟩ : Timer) = false := rfl
      rw [hc]
      simp only [Bool.false_eq_true, if_false, Nat.sub_zero]
      exact w6
    exact CW_dissolveChar hs1
  | complete d =>
    have hpos : 0 < List.countP Timer.isComplete s.pendingTimeouts :=
      List.countP_pos_iff.2 ⟨⟨tid, .complete d⟩, ht, rfl⟩
    refine ⟨w1, w2, w3, w4, w5, ?_⟩
    show s.completeCalls + 1 +
        List.countP Timer.isComplete
          (s.pendingTimeouts.erase ⟨tid, .complete d⟩) =
      s.completionScheduled
    rw [countP_erase_mem _ ht]
    have hc : Timer.isComplete (⟨tid, .complete d⟩ : Timer) = true := rfl
    rw [hc]
    simp only [if_true]
    omega
  | reveal i intervalId d =>
    have hs1 : CountsWF
        { s with pendingTimeouts := s.pendingTimeouts.erase ⟨tid, .reveal i intervalId d⟩ } := by
      refine ⟨w1, w2, w3, w4, w5, ?_⟩
      show s.completeCalls +
          List.countP Timer.isComplete
            (s.pendingTimeouts.erase ⟨tid, .reveal i intervalId d⟩) =
        s.completionScheduled
      rw [countP_erase_mem _ ht]
      have hc : Timer.isComplete (⟨tid, .reveal i intervalId d⟩ : Timer) = false := rfl
      rw [hc]
      simp only [Bool.false_eq_true, if_false, Nat.sub_zero]
      exact w6
    exact CW_applyReveal hs1

theorem CW_intervalTick {s : GateState} {i r : Nat} (hwf : CountsWF s) :
    CountsWF (intervalTick s i r) := by
  unfold intervalTick
  cases hu : s.units2[i]? with
  | none => exact hwf
  | some u => exact CW_setContent hu hwf

theorem CW_step {s s' : GateState} (hstep : Step s s') (hwf : CountsWF s) :
    CountsWF s' := by
  cases hstep with
  | scrambleStart => exact CW_startScramble hwf
  | emberActivate => exact CW_updateTextGlow hwf
  | frameFires =>
    exact CW_updateTextGlow
      ⟨hwf.1, hwf.2.1, hwf.2.2.1, hwf.2.2.2.1, hwf.2.2.2.2.1, hwf.2.2.2.2.2⟩
  | timeoutFires t ht => exact CW_fireTimeout ht hwf
  | tick => exact CW_intervalTick hwf

end Gate
namespace Gate

theorem countProcessed_le (s : GateState) :
    countProcessed s ≤ allCharsLength s := by
  have := List.countP_le_length (l := s.units1 ++ s.units2)
    (p := fun v : UnitState => v.processed)
  simpa [countProcessed, allCharsLength, List.length_append] using this

theorem countDissolved_le (s : GateState) :
    countDissolved s ≤ allCharsLength s := by
  have := List.countP_le_length (l := s.units1 ++ s.units2)
    (p := fun v : UnitState => v.inDissolvedSet)
  simpa [countDissolved, allCharsLength, List.length_append] using this

theorem mem_initGate_units {r : Nat → Nat} {v : UnitState}
    (hv : v ∈ (initGate r).units1 ++ (initGate r).units2) :
    v.processed = false ∧ v.inDissolvedSet = false ∧ v.dissolvedAttr = false := by
  rcases List.mem_append.1 hv with hv | hv
  · obtain ⟨c, _, rfl⟩ := List.mem_map.1 hv
    exact ⟨rfl, rfl, rfl⟩
  · obtain ⟨j, _, rfl⟩ := List.mem_map.1 hv
    exact ⟨rfl, rfl, rfl⟩

theorem initGate_totalChars (r : Nat → Nat) : (initGate r).totalChars = 37 := by
  show mkUnits1.length + (mkUnits2 r).length = 37
  have h1 : mkUnits1.length = 23 := by decide
  have h2 : (mkUnits2 r).length = 14 := by
    show ((List.range TEXT_PART_2.length).map _).length = 14
    rw [List.length_map, List.length_range]
    decide
  omega

theorem CW_initGate (r : Nat → Nat) : CountsWF (initGate r) := by
  have hz1 : countProcessed (initGate r) = 0 :=
    List.countP_eq_zero.2 (fun v hv => by
      rw [(mem_initGate_units hv).1]; exact Bool.false_ne_true)
  have hz2 : countDissolved (initGate r) = 0 :=
    List.countP_eq_zero.2 (fun v hv => by
      rw [(mem_initGate_units hv).2.1]; exact Bool.false_ne_true)
  refine ⟨hz1.symm, hz2.symm, ?_, rfl, ?_, rfl⟩
  · intro v hv
    rw [(mem_initGate_units hv).2.1, (mem_initGate_units hv).2.2]
  · have h37 := initGate_totalChars r
    have h0 : (initGate r).dissolvedCount = 0 := rfl
    rw [if_neg (by omega)]
    rfl

theorem CW_reachable {r : Nat → Nat} {s : GateState}
    (h : Reachable (initGate r) s) : CountsWF s := by
  induction h with
  | refl => exact CW_initGate r
  | tail hr hstep ih => exact CW_step hstep ih

end Gate

/-- C1 (amended): the completion timeout is registered exactly once per
mount, at the dissolve call where the dissolved count reaches
`totalCharsRef.current` — the count of ALL character units, blank units
included (37 for these phrases, versus 33 non-blank units).  The code's
comparison is `>=` rather than `==`, but because every unit dissolves at
most once the count never exceeds the total, so the callback is still
scheduled (and invoked) at most once. -/
theorem C1_amended_completion (r : Nat → Nat) (s : Gate.GateState)
    (hreach : Gate.Reachable (Gate.initGate r) s) :
    s.completionScheduled ≤ 1 ∧
    s.completeCalls ≤ 1 ∧
    (s.completionScheduled = 1 ↔ s.dissolvedCount = s.totalChars) ∧
    (Gate.initGate r).totalChars = 37 ∧
    Gate.nonBlankTotal = 33 := by
  obtain ⟨w1, w2, w3, w4, w5, w6⟩ := Gate.CW_reachable hreach
  have hle : s.dissolvedCount ≤ s.totalChars := by
    rw [w2, w4]
    exact Gate.countDissolved_le s
  have hsch : s.completionScheduled ≤ 1 := by
    rw [w5]; split <;> omega
  refine ⟨hsch, by omega, ?_, Gate.initGate_totalChars r, by decide⟩
  rw [w5]
  split <;> omega

/-- Witness for C1 (amended): the fresh mount state is reachable and
satisfies the amended completion bound. -/
theorem C1_amended_witness :
    (Gate.initGate (fun _ => 0)).completionScheduled ≤ 1 ∧
    (Gate.initGate (fun _ => 0)).totalChars = 37 := by
  have h := C1_amended_completion (fun _ => 0) _ Gate.Reachable.refl
  exact ⟨h.1, h.2.2.2.1⟩
namespace Gate

theorem glowVisit_frameRequest (e : Int) (pos : Nat → Int) (side : Bool)
    (s : GateState) (i : Nat) :
    (glowVisit e pos side s i).frameRequest = s.frameRequest := by
  rcases glowVisit_chars e pos side s i with heq | ⟨u, hu, hup, heq⟩ <;> rw [heq]
  exact (setUnit_scalars s side i
    { u with processed := true, hot := true }).2.2.2.2.2.2.2

theorem glowFold_frameRequest (e : Int) (pos : Nat → Int) (side : Bool)
    (idxs : List Nat) (s : GateState) :
    (idxs.foldl (glowVisit e pos side) s).frameRequest = s.frameRequest := by
  induction idxs generalizing s with
  | nil => rfl
  | cons i rest ih =>
    exact (ih (glowVisit e pos side s i)).trans (glowVisit_frameRequest e pos side s i)

theorem C4_core {s2 : GateState} (hwf2 : CountsWF s2)
    (hfr2 : s2.frameRequest = none) :
    ((if s2.processedCount < allCharsLength s2 then
        { s2 with frameRequest := some s2.nextId, nextId := s2.nextId + 1 }
      else s2).frameRequest = none ↔
     allProcessed
      (if s2.processedCount < allCharsLength s2 then
        { s2 with frameRequest := some s2.nextId, nextId := s2.nextId + 1 }
      else s2)) := by
  have hle := countProcessed_le s2
  have hw1 := hwf2.1
  split
  · rename_i hlt
    constructor
    · intro h
      exact absurd h (by simp)
    · intro hall
      have hc : countProcessed s2 = allCharsLength s2 := (allProcessed_iff _).1 hall
      omega
  · rename_i hge
    rw [hfr2, allProcessed_iff]
    constructor
    · intro _
      omega
    · intro _
      rfl

end Gate

/-- C4 (amended): the per-frame proximity poll terminates itself only once
every character unit — blank units included — has been marked processed:
after a call to `updateTextGlow` with no frame pending, a new animation
frame has been requested if and only if some unit (possibly a blank one)
is still unprocessed; in particular no frame is scheduled after the frame
in which the last remaining unit is claimed, and a call made when all
units are already processed returns without doing anything. -/
theorem C4_amended_self_termination (e : Int) (p1 p2 : Nat → Int)
    (s : Gate.GateState) (hwf : Gate.CountsWF s)
    (hfr : s.frameRequest = none) :
    ((Gate.updateTextGlow e p1 p2 s).frameRequest = none ↔
      Gate.allProcessed (Gate.updateTextGlow e p1 p2 s)) ∧
    (Gate.allProcessed s → Gate.updateTextGlow e p1 p2 s = s) := by
  constructor
  · unfold Gate.updateTextGlow
    split
    · rename_i hge
      rw [hfr, Gate.allProcessed_iff]
      have hle := Gate.countProcessed_le s
      have hw1 := hwf.1
      constructor
      · intro _
        omega
      · intro _
        rfl
    · exact Gate.C4_core
        (Gate.CW_glowFold
          (List.range
            (((List.range s.units1.length).foldl (Gate.glowVisit e p1 false) s).units2.length))
          (Gate.CW_glowFold (List.range s.units1.length) hwf))
        (by rw [Gate.glowFold_frameRequest, Gate.glowFold_frameRequest, hfr])
  · intro hall
    unfold Gate.updateTextGlow
    have hc : Gate.countProcessed s = Gate.allCharsLength s :=
      (Gate.allProcessed_iff s).1 hall
    have hw1 := hwf.1
    rw [if_pos (by omega)]

/-- Witness for C4 (amended): one frame over the fresh state with every
span in range claims everything and schedules no further frame. -/
theorem C4_amended_witness :
    (Gate.updateTextGlow 0 (fun _ => 0) (fun _ => 0)
        (Gate.initGate (fun _ => 0))).frameRequest = none ↔
      Gate.allProcessed
        (Gate.updateTextGlow 0 (fun _ => 0) (fun _ => 0)
          (Gate.initGate (fun _ => 0))) :=
  (C4_amended_self_termination 0 (fun _ => 0) (fun _ => 0)
    (Gate.initGate (fun _ => 0)) (Gate.CW_initGate (fun _ => 0)) rfl).1
namespace Gate

theorem scrambleVisit_units2 (s : GateState) (i : Nat) :
    (scrambleVisit s i).units2 = s.units2 := by
  rcases scrambleVisit_chars s i with heq | ⟨u, hu, hb, heq⟩
  · rw [heq]
  · rw [heq]
    rfl

theorem scrambleVisit_pendingIntervals (s : GateState) (i : Nat) :
    (scrambleVisit s i).pendingIntervals =
      s.pendingIntervals ++
        (if scrambleTargets s i then [(s.nextId, i)] else []) := by
  unfold scrambleVisit scrambleTargets
  cases hu : s.units2[i]? with
  | none => simp
  | some u =>
    by_cases hb : u.finalGlyph = NBSP
    · simp [hb]
    · simp [hb, scheduleTimeout]

theorem scrambleVisit_revealTargets (s : GateState) (i : Nat) :
    ((scrambleVisit s i).pendingTimeouts).filterMap Timer.revealTarget =
      (s.pendingTimeouts.filterMap Timer.revealTarget) ++
        (if scrambleTargets s i then [(i, revealDelayMs i)] else []) := by
  unfold scrambleVisit scrambleTargets
  cases hu : s.units2[i]? with
  | none => simp
  | some u =>
    by_cases hb : u.finalGlyph = NBSP
    · simp [hb]
    · simp [hb, scheduleTimeout, List.filterMap_append, Timer.revealTarget]

theorem scrambleTargets_visit (s : GateState) (i : Nat) :
    scrambleTargets (scrambleVisit s i) = scrambleTargets s := by
  funext j
  unfold scrambleTargets
  rw [scrambleVisit_units2]

theorem scrambleFold_intervals (idxs : List Nat) (s : GateState) :
    ((idxs.foldl scrambleVisit s).pendingIntervals).map Prod.snd =
      s.pendingIntervals.map Prod.snd ++ idxs.filter (scrambleTargets s) := by
  induction idxs generalizing s with
  | nil => simp
  | cons i rest ih =>
    rw [List.foldl_cons, ih (scrambleVisit s i), scrambleTargets_visit,
      scrambleVisit_pendingIntervals, List.map_append, List.filter_cons]
    by_cases hp : scrambleTargets s i
    · simp [hp, List.append_assoc]
    · simp [hp]

theorem scrambleFold_reveals (idxs : List Nat) (s : GateState) :
    (((idxs.foldl scrambleVisit s).pendingTimeouts).filterMap Timer.revealTarget) =
      (s.pendingTimeouts.filterMap Timer.revealTarget) ++
        (idxs.filter (scrambleTargets s)).map (fun j => (j, revealDelayMs j)) := by
  induction idxs generalizing s with
  | nil => simp
  | cons i rest ih =>
    rw [List.foldl_cons, ih (scrambleVisit s i), scrambleTargets_visit,
      scrambleVisit_revealTargets, List.filter_cons]
    by_cases hp : scrambleTargets s i
    · simp [hp, List.append_assoc]
    · simp [hp]

theorem startScramble_intervals (s : GateState) :
    ((startScramble s).pendingIntervals).map Prod.snd =
      s.pendingIntervals.map Prod.snd ++
        (List.range s.units2.length).filter (scrambleTargets s) :=
  scrambleFold_intervals _ s

theorem startScramble_reveals (s : GateState) :
    (((startScramble s).pendingTimeouts).filterMap Timer.revealTarget) =
      (s.pendingTimeouts.filterMap Timer.revealTarget) ++
        ((List.range s.units2.length).filter (scrambleTargets s)).map
          (fun j => (j, revealDelayMs j)) :=
  scrambleFold_reveals _ s

end Gate
namespace Gate

theorem getRandomChar_mem (k : Nat) : getRandomChar k ∈ SCRAMBLE_CHARS.toList := by
  unfold getRandomChar
  have hpos : 0 < SCRAMBLE_CHARS.length := by decide
  have hlt : k % SCRAMBLE_CHARS.length < SCRAMBLE_CHARS.toList.length :=
    Nat.mod_lt k hpos
  rw [List.getD_eq_getElem _ _ hlt]
  exact List.getElem_mem hlt

theorem scrTimed_before (rs : Nat → Nat) (init fin : Char) (d : Nat) :
    ∀ t, t < d →
      (scrTimedAt rs init fin d t).intervalActive = true ∧
      (scrTimedAt rs init fin d t).locks = 0 ∧
      (scrTimedAt rs init fin d t).content =
        (if t < SCRAMBLE_SPEED then init
         else getRandomChar (rs (t / SCRAMBLE_SPEED))) := by
  intro t
  induction t with
  | zero =>
    intro ht
    refine ⟨rfl, rfl, ?_⟩
    rw [if_pos (by decide)]
    rfl
  | succ t ih =>
    intro ht
    obtain ⟨ha, hl, hc⟩ := ih (by omega)
    have hs : SCRAMBLE_SPEED = 30 := rfl
    have hne : ¬(t + 1 = d) := by omega
    by_cases hmod : (t + 1) % SCRAMBLE_SPEED = 0
    · have hstep : scrTimedAt rs init fin d (t + 1) =
          { scrTimedAt rs init fin d t with
              content := getRandomChar (rs ((t + 1) / SCRAMBLE_SPEED)) } := by
        show scrTimedStep rs fin d (t + 1) (scrTimedAt rs init fin d t) = _
        unfold scrTimedStep
        rw [if_neg hne, if_pos ⟨ha, hmod⟩]
      rw [hstep]
      refine ⟨ha, hl, ?_⟩
      have h30 : ¬(t + 1 < SCRAMBLE_SPEED) := by
        rw [hs] at hmod ⊢
        omega
      rw [if_neg h30]
    · have hstep : scrTimedAt rs init fin d (t + 1) =
          scrTimedAt rs init fin d t := by
        show scrTimedStep rs fin d (t + 1) (scrTimedAt rs init fin d t) = _
        unfold scrTimedStep
        rw [if_neg hne, if_neg (by rintro ⟨-, hm⟩; exact hmod hm)]
      rw [hstep]
      refine ⟨ha, hl, ?_⟩
      rw [hc]
      by_cases h30 : t + 1 < SCRAMBLE_SPEED
      · rw [if_pos h30, if_pos (by omega)]
      · rw [if_neg h30]
        have ht30 : ¬(t < SCRAMBLE_SPEED) := by
          rw [hs] at hmod h30 ⊢
          omega
        rw [if_neg ht30]
        have hdiv : (t + 1) / SCRAMBLE_SPEED = t / SCRAMBLE_SPEED := by
          rw [hs] at hmod ⊢
          omega
        rw [hdiv]

theorem scrTimed_after (rs : Nat → Nat) (init fin : Char) (d : Nat)
    (hd : 0 < d) :
    ∀ t, d ≤ t →
      (scrTimedAt rs init fin d t).intervalActive = false ∧
      (scrTimedAt rs init fin d t).content = fin ∧
      (scrTimedAt rs init fin d t).locks = 1 := by
  intro t
  induction t with
  | zero => intro ht; omega
  | succ t ih =>
    intro ht
    by_cases heq : t + 1 = d
    · have htl : t < d := by omega
      obtain ⟨ha, hl, -⟩ := scrTimed_before rs init fin d t htl
      by_cases hmod : (t + 1) % SCRAMBLE_SPEED = 0
      · have hstep : scrTimedAt rs init fin d (t + 1) =
            { scrTimedAt rs init fin d t with
                content := fin, intervalActive := false,
                locks := (scrTimedAt rs init fin d t).locks + 1 } := by
          show scrTimedStep rs fin d (t + 1) (scrTimedAt rs init fin d t) = _
          unfold scrTimedStep
          rw [if_pos heq, if_pos ⟨ha, hmod⟩]
        rw [hstep]
        exact ⟨rfl, rfl, by rw [hl]⟩
      · have hstep : scrTimedAt rs init fin d (t + 1) =
            { scrTimedAt rs init fin d t with
                content := fin, intervalActive := false,
                locks := (scrTimedAt rs init fin d t).locks + 1 } := by
          show scrTimedStep rs fin d (t + 1) (scrTimedAt rs init fin d t) = _
          unfold scrTimedStep
          rw [if_pos heq, if_neg (by rintro ⟨-, hm⟩; exact hmod hm)]
        rw [hstep]
        exact ⟨rfl, rfl, by rw [hl]⟩
    · obtain ⟨ha, hc, hl⟩ := ih (by omega)
      have hstep : scrTimedAt rs init fin d (t + 1) =
          scrTimedAt rs init fin d t := by
        show scrTimedStep rs fin d (t + 1) (scrTimedAt rs init fin d t) = _
        unfold scrTimedStep
        rw [if_neg heq, if_neg (by
            rintro ⟨hact, -⟩
            rw [ha] at hact
            exact Bool.false_ne_true hact)]
      rw [hstep]
      exact ⟨ha, hc, hl⟩

end Gate
namespace Gate

theorem revealDelayMs_pos (i : Nat) : 0 < revealDelayMs i := by
  unfold revealDelayMs SCRAMBLE_STAGGER_MS SCRAMBLE_REVEAL_DURATION
  omega

theorem initGate_interval_targets (r : Nat → Nat) :
    ((startScramble (initGate r)).pendingIntervals).map Prod.snd =
      (List.range (initGate r).units2.length).filter
        (scrambleTargets (initGate r)) := by
  rw [startScramble_intervals]
  rfl

theorem initGate_reveal_targets (r : Nat → Nat) :
    (((startScramble (initGate r)).pendingTimeouts).filterMap Timer.revealTarget) =
      ((List.range (initGate r).units2.length).filter
        (scrambleTargets (initGate r))).map (fun j => (j, revealDelayMs j)) := by
  rw [startScramble_reveals]
  rfl

theorem mem_scramble_filter {r : Nat → Nat} {i : Nat} {u : UnitState}
    (hu : (initGate r).units2[i]? = some u) (hnb : u.finalGlyph ≠ NBSP) :
    i ∈ (List.range (initGate r).units2.length).filter
      (scrambleTargets (initGate r)) := by
  obtain ⟨hi, -⟩ := List.getElem?_eq_some_iff.1 hu
  refine List.mem_filter.2 ⟨List.mem_range.2 hi, ?_⟩
  unfold scrambleTargets
  rw [hu]
  exact decide_eq_true hnb

end Gate

/-- C6: for every non-blank part-2 unit at index `i`, `startScramble`
creates exactly one interval and one reveal timeout for it, the reveal
deadline is `SCRAMBLE_STAGGER * 1000 * i + SCRAMBLE_REVEAL_DURATION`
milliseconds, and in the per-unit timed model the unit's interval stays
live and un-revealed strictly before the deadline (its displayed glyph
being a random member of the configured scramble character set from the
first interval firing onward), while from the deadline on the interval is
cancelled and the display glyph is locked to the final glyph exactly once
(`locks = 1`). -/
theorem C6_scramble_reveal (r rs : Nat → Nat) (i : Nat) (u : Gate.UnitState)
    (hu : (Gate.initGate r).units2[i]? = some u)
    (hnb : u.finalGlyph ≠ Gate.NBSP) :
    Gate.revealDelayMs i =
      Gate.SCRAMBLE_STAGGER_MS * i + Gate.SCRAMBLE_REVEAL_DURATION ∧
    (((Gate.startScramble (Gate.initGate r)).pendingIntervals).map
        Prod.snd).count i = 1 ∧
    ((((Gate.startScramble (Gate.initGate r)).pendingTimeouts).filterMap
        Gate.Timer.revealTarget).map Prod.fst).count i = 1 ∧
    (∀ p ∈ ((Gate.startScramble (Gate.initGate r)).pendingTimeouts).filterMap
        Gate.Timer.revealTarget, p.1 = i → p.2 = Gate.revealDelayMs i) ∧
    (∀ t, t < Gate.revealDelayMs i →
      (Gate.scrTimedAt rs u.content u.finalGlyph
          (Gate.revealDelayMs i) t).intervalActive = true ∧
      (Gate.scrTimedAt rs u.content u.finalGlyph
          (Gate.revealDelayMs i) t).locks = 0 ∧
      (Gate.SCRAMBLE_SPEED ≤ t →
        (Gate.scrTimedAt rs u.content u.finalGlyph
            (Gate.revealDelayMs i) t).content =
          Gate.getRandomChar (rs (t / Gate.SCRAMBLE_SPEED)) ∧
        (Gate.scrTimedAt rs u.content u.finalGlyph
            (Gate.revealDelayMs i) t).content ∈ Gate.SCRAMBLE_CHARS.toList)) ∧
    (∀ t, Gate.revealDelayMs i ≤ t →
      (Gate.scrTimedAt rs u.content u.finalGlyph
          (Gate.revealDelayMs i) t).intervalActive = false ∧
      (Gate.scrTimedAt rs u.content u.finalGlyph
          (Gate.revealDelayMs i) t).content = u.finalGlyph ∧
      (Gate.scrTimedAt rs u.content u.finalGlyph
          (Gate.revealDelayMs i) t).locks = 1) := by
  refine ⟨Nat.mul_comm i Gate.SCRAMBLE_STAGGER_MS ▸ rfl, ?_, ?_, ?_, ?_, ?_⟩
  · rw [Gate.initGate_interval_targets]
    exact List.count_eq_one_of_mem
      (((List.nodup_range _).filter _))
      (Gate.mem_scramble_filter hu hnb)
  · rw [Gate.initGate_reveal_targets, List.map_map]
    have hid : (Prod.fst ∘ fun j => (j, Gate.revealDelayMs j)) = id := rfl
    rw [hid, List.map_id]
    exact List.count_eq_one_of_mem
      (((List.nodup_range _).filter _))
      (Gate.mem_scramble_filter hu hnb)
  · intro p hp hpi
    rw [Gate.initGate_reveal_targets] at hp
    obtain ⟨j, -, rfl⟩ := List.mem_map.1 hp
    rw [← hpi]
  · intro t ht
    obtain ⟨ha, hl, hc⟩ :=
      Gate.scrTimed_before rs u.content u.finalGlyph (Gate.revealDelayMs i) t ht
    refine ⟨ha, hl, ?_⟩
    intro hge
    rw [hc, if_neg (by omega)]
    exact ⟨rfl, Gate.getRandomChar_mem _⟩
  · intro t ht
    exact Gate.scrTimed_after rs u.content u.finalGlyph (Gate.revealDelayMs i)
      (Gate.revealDelayMs_pos i) t ht

/-- Witness for C6: the first part-2 unit locks to its final glyph at its
deadline of 600 ms. -/
theorem C6_witness :
    (Gate.scrTimedAt (fun _ => 0)
        (Gate.mkUnit2 (Gate.getRandomChar 0) 's').content
        (Gate.mkUnit2 (Gate.getRandomChar 0) 's').finalGlyph
        (Gate.revealDelayMs 0) 600).content =
      (Gate.mkUnit2 (Gate.getRandomChar 0) 's').finalGlyph ∧
    Gate.revealDelayMs 0 = 600 := by
  have h := C6_scramble_reveal (fun _ => 0) (fun _ => 0) 0
    (Gate.mkUnit2 (Gate.getRandomChar 0) 's') (by decide) (by decide)
  exact ⟨(h.2.2.2.2.2 600 (by decide)).2.1, by decide⟩
namespace Gate

theorem glowVisit_claims {e : Int} {pos : Nat → Int} {side : Bool}
    {s : GateState} {i : Nat} {u : UnitState}
    (hg : getUnit s side i = some u) (hup : u.processed = false)
    (hdist : (e - pos i).natAbs < GLOW_RADIUS) :
    getUnit (glowVisit e pos side s i) side i =
      some { u with processed := true, hot := true } := by
  unfold glowVisit
  rw [hg]
  simp only [hup, Bool.false_eq_true, if_false]
  rw [if_pos hdist]
  have hbase := @getUnit_setUnit_self s side i u
    { u with processed := true, hot := true } hg
  cases side <;>
    simp only [getUnit, setUnit, scheduleTimeout] at hbase ⊢ <;>
    exact hbase

end Gate

/-- C3 (amended): whitespace units are rendered as the non-breaking blank
and the scramble loop skips them (no interval is ever created for a blank
unit), but they are NOT excluded from the rest of the animation: the
proximity tracker claims a blank unit exactly like any other (marking it
hot and processed when the ember passes), and `dissolveChar` on a blank
unit spawns the full particle count. -/
theorem C3_amended_blank_units (r : Nat → Nat) :
    (∀ u ∈ (Gate.initGate r).units1 ++ (Gate.initGate r).units2,
        u.isBlank = true → u.content = Gate.NBSP ∧ u.finalGlyph = Gate.NBSP) ∧
    (∀ p ∈ (Gate.startScramble (Gate.initGate r)).pendingIntervals,
        ∃ u, (Gate.initGate r).units2[p.2]? = some u ∧
          u.finalGlyph ≠ Gate.NBSP) ∧
    (∀ (e : Int) (pos : Nat → Int) (side : Bool) (s : Gate.GateState)
        (i : Nat) (u : Gate.UnitState),
        Gate.getUnit s side i = some u → u.isBlank = true →
        u.processed = false → (e - pos i).natAbs < Gate.GLOW_RADIUS →
        Gate.getUnit (Gate.glowVisit e pos side s i) side i =
          some { u with processed := true, hot := true }) ∧
    (∀ (s : Gate.GateState) (i : Nat) (u : Gate.UnitState),
        Gate.getUnit s false i = some u → u.isBlank = true →
        u.inDissolvedSet = false → u.dissolvedAttr = false →
        (Gate.dissolveChar s false i).particles1 =
          s.particles1 + Gate.PARTICLES_PER_CHAR) := by
  refine ⟨?_, ?_, ?_, ?_⟩
  · intro u hu hb
    rcases List.mem_append.1 hu with hu | hu
    · obtain ⟨c, -, rfl⟩ := List.mem_map.1 hu
      have hc : (c == ' ') = true := hb
      have hceq : c = ' ' := by simpa using hc
      unfold Gate.mkUnit1
      simp [hceq]
    · obtain ⟨j, -, rfl⟩ := List.mem_map.1 hu
      have hc : (Gate.TEXT_PART_2.toList.getD j ' ' == ' ') = true := hb
      have hceq : Gate.TEXT_PART_2.data[j]?.getD ' ' = ' ' := by simpa using hc
      unfold Gate.mkUnit2
      simp [hceq]
  · intro p hp
    have hsnd : p.2 ∈ ((Gate.startScramble (Gate.initGate r)).pendingIntervals).map
        Prod.snd := List.mem_map.2 ⟨p, hp, rfl⟩
    rw [Gate.initGate_interval_targets] at hsnd
    have := (List.mem_filter.1 hsnd).2
    unfold Gate.scrambleTargets at this
    cases hu : (Gate.initGate r).units2[p.2]? with
    | none => rw [hu] at this; simp at this
    | some u =>
      rw [hu] at this
      exact ⟨u, rfl, of_decide_eq_true this⟩
  · intro e pos side s i u hg hb hup hdist
    exact Gate.glowVisit_claims hg hup hdist
  · intro s i u hg hb h1 h2
    exact Gate.particles1_dissolveChar_fresh hg h1 h2

/-- Witness for C3 (amended): the blank at index 3 of the first phrase
renders as the non-breaking blank, is claimed by the tracker when the
ember is over it, and emits 7 particles when dissolved. -/
theorem C3_amended_witness :
    (Gate.mkUnit1 ' ').content = Gate.NBSP ∧
    Gate.getUnit
        (Gate.glowVisit 0 (fun _ => 0) false (Gate.initGate (fun _ => 0)) 3)
        false 3 =
      some { Gate.mkUnit1 ' ' with processed := true, hot := true } ∧
    (Gate.dissolveChar (Gate.initGate (fun _ => 0)) false 3).particles1 =
      (Gate.initGate (fun _ => 0)).particles1 + Gate.PARTICLES_PER_CHAR := by
  have h := C3_amended_blank_units (fun _ => 0)
  refine ⟨(h.1 (Gate.mkUnit1 ' ') (by decide) (by decide)).1, ?_, ?_⟩
  · exact h.2.2.1 0 (fun _ => 0) false (Gate.initGate (fun _ => 0)) 3
      (Gate.mkUnit1 ' ') (by decide) (by decide) (by decide) (by decide)
  · exact h.2.2.2 (Gate.initGate (fun _ => 0)) 3 (Gate.mkUnit1 ' ')
      (by decide) (by decide) (by decide) (by decide)
